import Mathlib

/-! Normalisation of EVM transactions.

A shallow embedding of `chains/evm/blockchain.go` (the transaction builders of the
`EVM` blockchain adapter) and of `pkg/transaction/transaction.go`, followed by theorems
about what the builders return.

Conventions of the embedding

* A Go call that may return an `error` or panic returns `Result α`; the three ways of not
  returning a value are kept apart in `Failure`.
* `uint64` values are natural numbers, `int32`/`int64`/`*big.Int` values are integers;
  every conversion that can wrap in Go is an explicit function (`bigUint64`, `mulUint64`,
  `int64OfUint64`, `negInt32`, `bigInt64`).
* Nilable Go values (`*common.Address`, `*big.Int`, a nil slice, a nil `*Currency`) are
  `Option`s.
* Byte arrays of fixed size (`common.Hash`, `common.Address`) carry their length.
* Strings are Lean strings; all strings sliced by the code are ASCII, so a byte offset is a
  character offset.
-/

namespace evm

/-! ## Outcomes of a call -/

/-- The ways a Go call ends without a value. -/
inductive Failure where
  /-- A non-nil `error` result, with its message. -/
  | error (msg : String)
  /-- The run-time panic "invalid memory address or nil pointer dereference". -/
  | nilDereference
  /-- The run-time panic "index out of range". -/
  | indexOutOfRange
  deriving DecidableEq, Repr

/-- The result of a call: a value, an error or a panic. -/
abbrev Result (α : Type) := Except Failure α

deriving instance DecidableEq for Except

/-! ## Machine integers -/

/-- Two's-complement reduction of an integer to `int32`. -/
def wrapInt32 (z : Int) : Int := (z + 2147483648) % 4294967296 - 2147483648

/-- Two's-complement reduction of an integer to `int64`. -/
def wrapInt64 (z : Int) : Int :=
  (z + 9223372036854775808) % 18446744073709551616 - 9223372036854775808

/-- Unary minus on `int32`. -/
def negInt32 (x : Int) : Int := wrapInt32 (-x)

/-- The product of two `uint64` values, as Go computes it (modulo 2^64). -/
def mulUint64 (x y : Nat) : Nat := (x * y) % 18446744073709551616

/-- The conversion `int64(u)` of a `uint64` value. -/
def int64OfUint64 (u : Nat) : Int :=
  if u < 9223372036854775808 then (u : Int) else (u : Int) - 18446744073709551616

/-- The method `(*big.Int).Uint64`: the low 64 bits of the absolute value. -/
def bigUint64 (x : Int) : Nat := x.natAbs % 18446744073709551616

/-- The method `(*big.Int).Int64`: the low 64 bits of the absolute value as `int64`, negated
when the number is negative. -/
def bigInt64 (x : Int) : Int :=
  let v := int64OfUint64 (x.natAbs % 18446744073709551616)
  if x < 0 then wrapInt64 (-v) else v

/-! ## Decimals (github.com/shopspring/decimal) -/

/-- A decimal number `value * 10 ^ exp`; `exp` is an `int32`. -/
structure Decimal where
  value : Int
  exp : Int
  deriving DecidableEq, Repr

namespace Decimal

/-- The zero value `Decimal{}` of the type, which the library reads as the number 0. -/
def zero : Decimal := ⟨0, 0⟩

/-- The method `rescale`: the same number at exponent `exp`, truncated toward zero when
the new exponent is larger. -/
def rescale (d : Decimal) (exp : Int) : Decimal :=
  if d.exp = exp then d
  else if d.exp < exp then ⟨Int.tdiv d.value (10 ^ (exp - d.exp).toNat), exp⟩
  else ⟨d.value * 10 ^ (d.exp - exp).toNat, exp⟩

/-- The method `Sub`: both operands are brought to the smaller exponent. -/
def Sub (d d2 : Decimal) : Decimal :=
  let e := min d.exp d2.exp
  ⟨(d.rescale e).value - (d2.rescale e).value, e⟩

/-- The method `Add`: both operands are brought to the smaller exponent. -/
def Add (d d2 : Decimal) : Decimal :=
  let e := min d.exp d2.exp
  ⟨(d.rescale e).value + (d2.rescale e).value, e⟩

/-- The rational number a decimal stands for. -/
def toRat (d : Decimal) : ℚ := (d.value : ℚ) * (10 : ℚ) ^ d.exp

end Decimal

/-- The constructor `decimal.NewFromBigInt(value, exp)`. -/
def NewFromBigInt (value : Int) (exp : Int) : Decimal := ⟨value, exp⟩

/-! ## Hashes, addresses and their hexadecimal forms (go-ethereum `common`) -/

/-- A byte. -/
abbrev Byte := Fin 256

/-- The type `common.Hash`, an array of 32 bytes. -/
structure Hash where
  bytes : List Byte
  size : bytes.length = 32
  deriving DecidableEq

/-- The type `common.Address`, an array of 20 bytes. -/
structure Address where
  bytes : List Byte
  size : bytes.length = 20
  deriving DecidableEq

/-- The function `common.BigToHash` on a non-negative number: its low 32 bytes, most
significant first. -/
def BigToHash (n : Nat) : Hash :=
  ⟨(List.range 32).map fun i => ⟨(n >>> (8 * (31 - i))) % 256, Nat.mod_lt _ (by decide)⟩,
    by simp⟩

/-- The function `common.BigToAddress` on a non-negative number: its low 20 bytes, most
significant first. -/
def BigToAddress (n : Nat) : Address :=
  ⟨(List.range 20).map fun i => ⟨(n >>> (8 * (19 - i))) % 256, Nat.mod_lt _ (by decide)⟩,
    by simp⟩

/-- The method `Hash.Bytes`: the slice over the whole array. -/
def Hash.Bytes (h : Hash) : List Byte := h.bytes

/-- The zero-valued hash. -/
def Hash.zero : Hash := ⟨List.replicate 32 0, by decide⟩

/-- The method `Address.Hash`: the address left-padded with zero bytes to 32 bytes. -/
def Address.Hash (a : Address) : Hash :=
  ⟨List.replicate 12 0 ++ a.bytes, by simp [a.size]⟩

/-- The digit table of `encoding/hex`. -/
def hextable : List Char := "0123456789abcdef".data

/-- The lower-case hexadecimal digit of a value below 16. -/
def hexDigit (n : Nat) : Char := hextable.getD n '0'

/-- The function `common.Bytes2Hex` (`hex.EncodeToString`): two lower-case digits per byte. -/
def Bytes2Hex (d : List Byte) : String :=
  ⟨d.flatMap fun x => [hexDigit (x.val / 16), hexDigit (x.val % 16)]⟩

/-- The method `Hash.Hex` (`hexutil.Encode`): "0x" and 64 lower-case digits. -/
def Hash.Hex (h : Hash) : String := "0x" ++ Bytes2Hex h.bytes

/-- The Go slice expression `s[n:]` on an ASCII string of at least `n` bytes. The code
applies it with `n = 26` to the form `Hex()` of a hash, which has 66 characters
(`Hash.Hex_length`), so the bound is always in range. -/
def sliceFrom (s : String) (n : Nat) : String := ⟨s.data.drop n⟩

/-! ### Keccak-256, for the checksum of `Address.Hex` -/

/-- Rotation of a 64-bit lane to the left. -/
def rotl64 (x n : Nat) : Nat :=
  ((x <<< n) ||| (x >>> (64 - n))) % 18446744073709551616

/-- One step of the linear feedback shift register that generates the round constants:
the bit put out and the next state of the register. -/
def lfsrStep (r : Nat) : Bool × Nat :=
  (decide (r % 2 = 1),
    if r / 128 % 2 = 1 then ((2 * r) ^^^ 113) % 256 else (2 * r) % 256)

/-- The constant of one round, from the state of the register before the round: output
bit `j` of the register, for `j` from 0 to 6, is bit 2^j - 1 of the constant. The state of
the register after the round comes second. -/
def roundConstant (r : Nat) : Nat × Nat :=
  (List.range 7).foldl
    (fun (acc : Nat × Nat) j =>
      let out := lfsrStep acc.2
      (if out.1 then acc.1 + 2 ^ (2 ^ j - 1) else acc.1, out.2))
    (0, r)

/-- The constants of `n` rounds, from the state `r` of the register. -/
def roundConstants : Nat → Nat → List Nat
  | 0, _ => []
  | n + 1, r => (roundConstant r).1 :: roundConstants n (roundConstant r).2

/-- The 24 round constants of Keccak-f[1600]. -/
def keccakRC : List Nat := roundConstants 24 1

/-- The rotation offsets of the rho step, that of lane (x, y) at position x + 5 * y.
Lane (0, 0) is not rotated; along the walk from (1, 0) by (x, y) ↦ (y, 2x + 3y), the lane
reached at step `t` is rotated by (t + 1)(t + 2) / 2 modulo 64. -/
def keccakRot : List Nat :=
  ((List.range 24).foldl
    (fun (acc : List Nat × Nat × Nat) t =>
      (acc.1.set (acc.2.1 + 5 * acc.2.2) ((t + 1) * (t + 2) / 2 % 64),
        acc.2.2, (2 * acc.2.1 + 3 * acc.2.2) % 5))
    (List.replicate 25 0, 1, 0)).1

/-- Lane `i` of a state; the 25 lanes of 64 bits are packed into one number, lane `i` at
bit 64 * i. -/
def laneAt (s i : Nat) : Nat := (s >>> (64 * i)) % 18446744073709551616

/-- Lane (x, y) of a state, coordinates taken modulo 5; it is at position x + 5 * y. -/
def lane (s x y : Nat) : Nat := laneAt s (x % 5 + 5 * (y % 5))

/-- The state whose lane `i` is `f i`, for `i` below `n`. -/
def packLanes (f : Nat → Nat) (n : Nat) : Nat :=
  (List.range n).foldl (fun acc i => acc + (f i) <<< (64 * i)) 0

/-- One round of Keccak-f[1600]: theta, rho and pi, chi, iota. -/
def keccakRound (a : Nat) (rc : Nat) : Nat :=
  let c := packLanes
    (fun x => lane a x 0 ^^^ lane a x 1 ^^^ lane a x 2 ^^^ lane a x 3 ^^^ lane a x 4) 5
  let d := packLanes (fun x => laneAt c ((x + 4) % 5) ^^^ rotl64 (laneAt c ((x + 1) % 5)) 1) 5
  let t := packLanes (fun i => laneAt a i ^^^ laneAt d (i % 5)) 25
  let r := packLanes
    (fun i =>
      let x := (i % 5 + 3 * (i / 5)) % 5
      let y := i % 5
      rotl64 (lane t x y) (keccakRot.getD (x + 5 * y) 0)) 25
  let e := packLanes
    (fun i =>
      lane r (i % 5) (i / 5) ^^^
        ((lane r (i % 5 + 1) (i / 5) ^^^ 18446744073709551615) &&&
          lane r (i % 5 + 2) (i / 5))) 25
  e ^^^ rc

/-- The permutation Keccak-f[1600]. -/
def keccakF (a : Nat) : Nat := keccakRC.foldl keccakRound a

/-- The number made of a list of bytes, least significant first. -/
def leBytes (bs : List Nat) : Nat := bs.foldr (fun x acc => x + 256 * acc) 0

/-- The message padded to a whole number of 136-byte blocks (pad10*1 with the legacy
Keccak domain byte 0x01). -/
def keccakPad (msg : List Nat) : List Nat :=
  let fill := 135 - msg.length % 136
  if fill = 0 then msg ++ [0x81]
  else msg ++ [0x01] ++ List.replicate (fill - 1) 0 ++ [0x80]

/-- Absorption of `n` blocks of 136 bytes into the state: a block is added to the first
17 lanes and the state is permuted. -/
def keccakAbsorb (st : Nat) (bytes : List Nat) : Nat → Nat
  | 0 => st
  | n + 1 => keccakAbsorb (keccakF (st ^^^ leBytes (bytes.take 136))) (bytes.drop 136) n

/-- The hash `sha3.NewLegacyKeccak256` of a byte string: the first 32 bytes of the state. -/
def Keccak256 (msg : List Nat) : List Nat :=
  let padded := keccakPad msg
  let st := keccakAbsorb 0 padded (padded.length / 136)
  (List.range 32).map fun i => (st >>> (8 * i)) % 256

/-- The method `Address.hex`: "0x" and 40 lower-case digits. -/
def Address.hex (a : Address) : String := "0x" ++ Bytes2Hex a.bytes

/-- The method `Address.checksumHex`: the EIP-55 form, where a letter digit is put in upper
case when the matching nibble of the Keccak-256 hash of the 40 digits is above 7. -/
def Address.checksumHex (a : Address) : List Char :=
  let buf := (Address.hex a).data
  let hash := Keccak256 ((buf.drop 2).map Char.toNat)
  (List.range buf.length).map fun i =>
    let c := buf.getD i '0'
    if i < 2 then c
    else
      let hashByte := hash.getD ((i - 2) / 2) 0
      let nibble := if i % 2 = 0 then hashByte >>> 4 else hashByte &&& 0xf
      if decide (c.toNat > 57) && decide (nibble > 7) then Char.ofNat (c.toNat - 32) else c

/-- The method `Address.Hex`: the EIP-55 checksummed hexadecimal form. -/
def Address.Hex (a : Address) : String := ⟨Address.checksumHex a⟩

/-! ## Configuration (pkg/blockchain) -/

/-- A non-nil value of type `interface{}` held in an options map: a string, or a value of
some other dynamic type (a number, a boolean, a nested map), which is told apart by a tag.
A key bound to the nil interface reads like an absent key and is not kept in the map. -/
inductive OptionValue where
  | str (s : String)
  | other (tag : Nat)
  deriving DecidableEq, Repr

/-- Modelled from the spec: the type `blockchain.BlockchainSettingsCurrency`, whose
declaration (pkg/blockchain) is not among the sources; it is the currency entry of the
spec, an asset id, a decimal scale and, for a token, a contract address, with the fields
blockchain.go reads. `BaseFactor` is an `int32`: it is passed, negated, as the `int32`
exponent of `decimal.NewFromBigInt`. `Options` is the map `map[string]interface{}` that
holds the contract address under `erc20_contract_address`, kept as an association list
read by its first binding. -/
structure BlockchainSettingsCurrency where
  ID : String
  BaseFactor : Int
  Options : List (String × OptionValue)
  deriving DecidableEq, Repr

/-- The index expression `c.Options[key]`; `none` is the nil interface of an absent key. -/
def BlockchainSettingsCurrency.option (c : BlockchainSettingsCurrency) (key : String) :
    Option OptionValue :=
  c.Options.lookup key

/-- The comparison `v == s` of an interface value with a string: true exactly when the
value holds a string with the same bytes. -/
def ifaceEqString (v : Option OptionValue) (s : String) : Bool :=
  match v with
  | some (.str t) => decide (t = s)
  | _ => false

/-- Modelled from the spec: the type `blockchain.BlockchainSettings`, whose declaration
(pkg/blockchain) is not among the sources; the configured currencies, in order. -/
structure BlockchainSettings where
  Currencies : List BlockchainSettingsCurrency
  deriving DecidableEq, Repr

/-- The fields of the type `EVM` that the builders read; the RPC client and its
configuration are left out. -/
structure EVM where
  currency : Option BlockchainSettingsCurrency
  contracts : List BlockchainSettingsCurrency
  settings : BlockchainSettings
  deriving DecidableEq, Repr

/-- The value `NewBlockchain` returns when the dial succeeds: no native currency yet, an
empty contract list and empty settings. -/
def NewBlockchain : EVM := { currency := none, contracts := [], settings := ⟨[]⟩ }

/-- The method `Configure`: a currency with a non-nil `erc20_contract_address` option is
appended to the contract list, any other becomes the native currency. -/
def Configure (b : EVM) (settings : BlockchainSettings) : EVM :=
  settings.Currencies.foldl
    (fun (b : EVM) c =>
      if (c.option "erc20_contract_address").isSome then
        { b with contracts := b.contracts ++ [c] }
      else
        { b with currency := some c })
    { b with settings := settings }

/-! ## Raw input (go-ethereum `core/types`) -/

/-- The fields of `types.Log` read by the builders. -/
structure types.Log where
  Address : Address
  Topics : List Hash
  Data : List Byte
  BlockNumber : Nat
  BlockHash : Hash
  deriving DecidableEq

/-- The fields of `types.Receipt` read by the builders. `Status` and `GasUsed` are
`uint64`; `Logs` is a slice, `none` when nil; `BlockNumber` is a `*big.Int`. -/
structure types.Receipt where
  Status : Nat
  GasUsed : Nat
  Logs : Option (List types.Log)
  BlockNumber : Option Int
  deriving DecidableEq

/-- The type `types.Message`, as far as it is read. -/
structure types.Message where
  From : Address
  To : Option Address
  deriving DecidableEq

/-- What the builders read of a `types.Transaction`: its hash, recipient (`none` for a
contract creation), value, gas price, gas limit and gas fee cap, and the outcome of the
sender recovery done by `AsMessage`. -/
structure types.Transaction where
  Hash : Hash
  To : Option Address
  Value : Int
  GasPrice : Int
  Gas : Nat
  GasFeeCap : Int
  Sender : Except String Address
  deriving DecidableEq

/-- The method `Cost`: gas price times gas limit, plus value. -/
def types.Transaction.Cost (tx : types.Transaction) : Int :=
  tx.GasPrice * (tx.Gas : Int) + tx.Value

/-- The method `AsMessage`: the message of the transaction, or the error of the sender
recovery. -/
def types.Transaction.AsMessage (tx : types.Transaction) : Result types.Message :=
  match tx.Sender with
  | .ok a => .ok { From := a, To := tx.To }
  | .error e => .error (.error e)

/-! ## Normalised records -/

/-- The type `null.String`. -/
structure NullString where
  String : String
  Valid : Bool
  deriving DecidableEq, Repr

/-- The constructor `null.StringFrom`. -/
def StringFrom (s : String) : NullString := { String := s, Valid := true }

/-- Modelled from the spec: the type `transaction.TransactionStatus` named by
blockchain.go, whose declaration is not among the sources; a string, like the type
`Status` of pkg/transaction. -/
abbrev TransactionStatus := String

/-- Modelled from the spec: the status `pending`, with the string of `StatusPending`. -/
def TransactionStatusPending : TransactionStatus := "pending"
/-- Modelled from the spec: the status `success`, with the string of `StatusSuccess`. -/
def TransactionStatusSuccess : TransactionStatus := "success"
/-- Modelled from the spec: the status `failed`, with the string of `StatusFailed`. -/
def TransactionStatusFailed : TransactionStatus := "failed"

/-- Modelled from the spec: the record type `transaction.Transaction` in the shape the
builders of blockchain.go populate (a list `FromAddresses`, a status of type
`TransactionStatus`); the declaration in pkg/transaction has a single `FromAddress`. The
fields are those of the normalised transaction of the spec: asset id, fee-asset id,
transaction hash, source addresses, destination address, fee, amount, block number,
status. A field left out of a composite literal has its zero value. -/
structure Transaction where
  Currency : String := ""
  CurrencyFee : String := ""
  TxHash : NullString := { String := "", Valid := false }
  FromAddresses : List String := []
  ToAddress : String := ""
  Fee : Decimal := Decimal.zero
  Amount : Decimal := Decimal.zero
  BlockNumber : Int := 0
  Status : TransactionStatus := ""
  deriving DecidableEq, Repr

/-! ## The builders (chains/evm/blockchain.go) -/

/-- The topic-0 value of an ERC-20 `Transfer` event. -/
def tokenEventIdentifier : String :=
  "0xddf252ad1be2c89b69c2b068fc378daa952ba7f163c4a11628f55a4df523b3ef"

/-- The method `transactionStatus`. -/
def transactionStatus (receiptTx : types.Receipt) : TransactionStatus :=
  match receiptTx.Status with
  | 1 => TransactionStatusSuccess
  | 0 => TransactionStatusFailed
  | _ => TransactionStatusPending

/-- The fee expression of lines 200 and 239, `decimal.NewFromBigInt(big.NewInt(int64(u)), e)`
with `u = receipt.GasUsed*tx.GasFeeCap().Uint64()` and `e = -b.currency.BaseFactor`. -/
def gasFee (currency : BlockchainSettingsCurrency) (tx : types.Transaction)
    (receipt : types.Receipt) : Decimal :=
  NewFromBigInt (int64OfUint64 (mulUint64 receipt.GasUsed (bigUint64 tx.GasFeeCap)))
    (negInt32 currency.BaseFactor)

/-- The method `buildETHTransactions`. -/
def buildETHTransactions (b : EVM) (tx : types.Transaction) (receipt : types.Receipt) :
    Result (List Transaction) :=
  match tx.AsMessage with
  | .error err => .error err
  | .ok msg =>
    match b.currency with
    | none => .error .nilDereference
    | some currency =>
      let cost := NewFromBigInt tx.Cost (negInt32 currency.BaseFactor)
      let amount := NewFromBigInt tx.Value (negInt32 currency.BaseFactor)
      let fee := cost.Sub amount
      match msg.To with
      | none => .error .nilDereference
      | some recipient =>
        .ok [{ Currency := currency.ID
               CurrencyFee := currency.ID
               TxHash := StringFrom tx.Hash.Hex
               FromAddresses := [msg.From.Hex]
               ToAddress := recipient.Hex
               Fee := fee
               Amount := amount
               Status := transactionStatus receipt }]

/-- The value of a hexadecimal digit, `none` for any other character. -/
def hexDigitValue (c : Char) : Option Nat :=
  if 48 ≤ c.toNat ∧ c.toNat ≤ 57 then some (c.toNat - 48)
  else if 97 ≤ c.toNat ∧ c.toNat ≤ 102 then some (c.toNat - 87)
  else if 65 ≤ c.toNat ∧ c.toNat ≤ 70 then some (c.toNat - 55)
  else none

/-- The digits of a base-16 numeral read from the left onto an accumulator. -/
def scanBase16 : List Char → Nat → Option Nat
  | [], acc => some acc
  | c :: cs, acc =>
    match hexDigitValue c with
    | some v => scanBase16 cs (16 * acc + v)
    | none => none

/-- The value left in `i` by `i := new(big.Int); i.SetString(s, 16)` for an unsigned
numeral `s`: the number read, and 0 when the call fails (the empty string is refused
before the receiver is written; the result of the call is not looked at). -/
def setStringBase16 (s : String) : Int :=
  match s.data with
  | [] => 0
  | c :: cs =>
    match scanBase16 (c :: cs) 0 with
    | some n => (n : Int)
    | none => 0

/-- The amount of lines 215 to 217: the data payload read in base 16, at the fixed
exponent -6. -/
def logValue (l : types.Log) : Decimal :=
  NewFromBigInt (setStringBase16 (Bytes2Hex l.Data)) (-6)

/-- The record appended at lines 221 to 230. -/
def erc20Record (currency c : BlockchainSettingsCurrency) (tx : types.Transaction)
    (receipt : types.Receipt) (fromAddress toAddress : String) (fee value : Decimal) :
    Transaction :=
  { Currency := c.ID
    CurrencyFee := currency.ID
    TxHash := StringFrom tx.Hash.Hex
    FromAddresses := [fromAddress]
    ToAddress := toAddress
    Fee := fee
    Amount := value
    Status := transactionStatus receipt }

/-- The loop over the logs of lines 203 to 233, from the accumulator `transactions`. -/
def erc20Logs (b : EVM) (currency : BlockchainSettingsCurrency) (tx : types.Transaction)
    (receipt : types.Receipt) (fee : Decimal) :
    List types.Log → List Transaction → Result (List Transaction)
  | [], transactions => .ok transactions
  | l :: ls, transactions =>
    if l.BlockHash.Bytes.length = 0 ∧ l.BlockNumber = 0 then
      erc20Logs b currency tx receipt fee ls transactions
    else
      match l.Topics with
      | [] => erc20Logs b currency tx receipt fee ls transactions
      | t0 :: _ =>
        if t0.Hex ≠ tokenEventIdentifier then
          erc20Logs b currency tx receipt fee ls transactions
        else
          match l.Topics.get? 1 with
          | none => .error .indexOutOfRange
          | some t1 =>
            let fromAddress := "0x" ++ sliceFrom t1.Hex 26
            match l.Topics.get? 2 with
            | none => .error .indexOutOfRange
            | some t2 =>
              let toAddress := "0x" ++ sliceFrom t2.Hex 26
              let value := logValue l
              erc20Logs b currency tx receipt fee ls
                (b.contracts.foldl
                  (fun transactions c =>
                    if ifaceEqString (c.option "erc20_contract_address") l.Address.Hex then
                      transactions ++
                        [erc20Record currency c tx receipt fromAddress toAddress fee value]
                    else transactions)
                  transactions)

/-- The record appended at lines 245 to 252. -/
def invalidErc20Record (currency c : BlockchainSettingsCurrency) (tx : types.Transaction)
    (receipt : types.Receipt) (blockNumber : Int) (fee : Decimal) : Transaction :=
  { TxHash := StringFrom tx.Hash.Hex
    BlockNumber := blockNumber
    CurrencyFee := currency.ID
    Currency := c.ID
    Fee := fee
    Status := transactionStatus receipt }

/-- The loop over the contracts of lines 243 to 254, from the accumulator `transactions`. -/
def invalidErc20Contracts (currency : BlockchainSettingsCurrency) (tx : types.Transaction)
    (receipt : types.Receipt) (fee : Decimal) :
    List BlockchainSettingsCurrency → List Transaction → Result (List Transaction)
  | [], transactions => .ok transactions
  | c :: cs, transactions =>
    match tx.To with
    | none => .error .nilDereference
    | some recipient =>
      if ifaceEqString (c.option "erc20_contract_address") recipient.Hex then
        match receipt.BlockNumber with
        | none => .error .nilDereference
        | some n =>
          invalidErc20Contracts currency tx receipt fee cs
            (transactions ++ [invalidErc20Record currency c tx receipt (bigInt64 n) fee])
      else invalidErc20Contracts currency tx receipt fee cs transactions

/-- The method `buildInvalidErc20Transaction`. -/
def buildInvalidErc20Transaction (b : EVM) (tx : types.Transaction)
    (receipt : types.Receipt) : Result (List Transaction) :=
  match b.currency with
  | none => .error .nilDereference
  | some currency =>
    let fee := gasFee currency tx receipt
    invalidErc20Contracts currency tx receipt fee b.contracts []

/-- The length `len(receipt.Logs)` and the range over `receipt.Logs`: a nil slice has
length 0 and no element. -/
def types.Receipt.logs (receipt : types.Receipt) : List types.Log := receipt.Logs.getD []

/-- The method `buildERC20Transactions`. -/
def buildERC20Transactions (b : EVM) (tx : types.Transaction) (receipt : types.Receipt) :
    Result (List Transaction) :=
  if transactionStatus receipt = TransactionStatusFailed ∧ receipt.logs.length = 0 then
    buildInvalidErc20Transaction b tx receipt
  else
    match b.currency with
    | none => .error .nilDereference
    | some currency =>
      let fee := gasFee currency tx receipt
      erc20Logs b currency tx receipt fee receipt.logs []

/-- The method `buildTransaction`; `TransactionReceipt` is what the RPC client returned
for the hash of the transaction. The decoder of the client refuses a receipt without a
`logs` field, so the log list of a receipt it returns is never nil: a transaction without
logs comes with a present, empty list. -/
def buildTransaction (b : EVM) (TransactionReceipt : Except String types.Receipt)
    (tx : types.Transaction) : Result (List Transaction) :=
  match TransactionReceipt with
  | .error err => .error (.error err)
  | .ok receipt =>
    if receipt.Logs ≠ none then buildERC20Transactions b tx receipt
    else buildETHTransactions b tx receipt

end evm

/-! ## The record of pkg/transaction/transaction.go -/

namespace transaction

/-- The type `Status`, a string. -/
abbrev Status := String

/-- The status "pending". -/
def StatusPending : Status := "pending"
/-- The status "success". -/
def StatusSuccess : Status := "success"
/-- The status "failed". -/
def StatusFailed : Status := "failed"
/-- The status "skipped". -/
def StatusSkipped : Status := "skipped"

/-- The type `Transaction` of pkg/transaction; `Options` is a map, `none` when nil. -/
structure Transaction where
  Currency : String
  CurrencyFee : String
  FromAddress : String
  ToAddress : String
  Fee : evm.Decimal
  Amount : evm.Decimal
  BlockNumber : Int
  TxHash : evm.NullString
  Status : Status
  Options : Option (List (String × String))
  deriving DecidableEq, Repr

/-- The function `New`: the five arguments, every other field at its zero value. -/
def New (currency : String) (fromAddress toAddress : String) (amount : evm.Decimal)
    (txHash : evm.NullString) : Transaction :=
  { Currency := currency
    CurrencyFee := ""
    FromAddress := fromAddress
    ToAddress := toAddress
    Fee := evm.Decimal.zero
    Amount := amount
    BlockNumber := 0
    TxHash := txHash
    Status := ""
    Options := none }

end transaction

/-! ## Declarative readings used in the statements -/

namespace evm

/-- The test of lines 220 and 244 for a registry entry and an address. -/
def matchesContract (c : BlockchainSettingsCurrency) (a : Address) : Bool :=
  ifaceEqString (c.option "erc20_contract_address") a.Hex

/-- The source address, destination address and amount read from a log that is not
skipped at line 204 or 207 and has a second and a third topic; `none` for any other log. -/
def decodeTransfer (l : types.Log) : Option (String × String × Decimal) :=
  if l.BlockHash.Bytes.length = 0 ∧ l.BlockNumber = 0 then none
  else
    match l.Topics with
    | t0 :: t1 :: t2 :: _ =>
      if t0.Hex = tokenEventIdentifier then
        some ("0x" ++ sliceFrom t1.Hex 26, "0x" ++ sliceFrom t2.Hex 26, logValue l)
      else none
    | _ => none

/-- A log that reaches line 212 once past line 204: its topic list is not empty and its
first topic reads as the Transfer signature. -/
def hasTransferTopic (l : types.Log) : Bool :=
  match l.Topics with
  | [] => false
  | t0 :: _ => decide (t0.Hex = tokenEventIdentifier)

/-- The records expected from one log: none when the log is not decoded, otherwise one per
registry entry that matches the emitting address, in registry order. -/
def transferRecords (contracts : List BlockchainSettingsCurrency)
    (currency : BlockchainSettingsCurrency) (tx : types.Transaction)
    (receipt : types.Receipt) (l : types.Log) : List Transaction :=
  match decodeTransfer l with
  | none => []
  | some (fromAddress, toAddress, value) =>
    (contracts.filter fun c => matchesContract c l.Address).map fun c =>
      { Currency := c.ID
        CurrencyFee := currency.ID
        TxHash := StringFrom tx.Hash.Hex
        FromAddresses := [fromAddress]
        ToAddress := toAddress
        Fee := gasFee currency tx receipt
        Amount := value
        BlockNumber := 0
        Status := transactionStatus receipt }

/-- The lower-case form of an ASCII letter; any other character is unchanged. -/
def asciiLower (c : Char) : Char :=
  if 65 ≤ c.toNat ∧ c.toNat ≤ 90 then Char.ofNat (c.toNat + 32) else c

/-- Equality of two strings up to the case of ASCII letters. -/
def equalFold (s t : String) : Bool :=
  decide (s.data.map asciiLower = t.data.map asciiLower)

/-- The records expected from the fallback: one per registry entry that matches the
recipient, in registry order, with hash, block number, fee asset, asset, fee and status;
amount, source list and destination stay at their zero values. -/
def fallbackRecords (contracts : List BlockchainSettingsCurrency)
    (currency : BlockchainSettingsCurrency) (tx : types.Transaction)
    (recipient : Address) (blockNumber : Int) (fee : Decimal)
    (status : TransactionStatus) : List Transaction :=
  (contracts.filter fun c => matchesContract c recipient).map fun c =>
    { Currency := c.ID
      CurrencyFee := currency.ID
      TxHash := StringFrom tx.Hash.Hex
      FromAddresses := []
      ToAddress := ""
      Fee := fee
      Amount := Decimal.zero
      BlockNumber := blockNumber
      Status := status }

/-- The boolean result of `i.SetString(s, 16)` for an unsigned numeral `s`, which the code
does not look at: true when `s` is a non-empty string of hexadecimal digits. -/
def parsesBase16 (s : String) : Bool :=
  match s.data with
  | [] => false
  | c :: cs => (scanBase16 (c :: cs) 0).isSome

/-- The number a list of bytes stands for, most significant byte first. -/
def bigEndian (d : List Byte) : Nat := d.foldl (fun acc x => 256 * acc + x.val) 0

/-- The Transfer signature hash as a value of type `common.Hash`. -/
def transferSignature : Hash :=
  BigToHash 0xddf252ad1be2c89b69c2b068fc378daa952ba7f163c4a11628f55a4df523b3ef

/-- The receipt without the logs that line 207 skips: those whose topic list is empty or
whose first topic is not the Transfer signature. A nil log list stays nil. -/
def withoutOtherLogs (receipt : types.Receipt) : types.Receipt :=
  { receipt with Logs := receipt.Logs.map fun ls => ls.filter hasTransferTopic }

/-- The test of line 53: the currency has a non-nil `erc20_contract_address` option. -/
def isTokenEntry (c : BlockchainSettingsCurrency) : Bool :=
  (c.option "erc20_contract_address").isSome

end evm

/-! ## Sample inputs -/

namespace evm.sample

/-- The address 0xdAC17F958D2ee523a2206206994597C13D831ec7 of a token contract. -/
def token : Address := BigToAddress 0xdac17f958d2ee523a2206206994597c13d831ec7

/-- The account 0x0000000000000000000000000000000000000a11. -/
def alice : Address := BigToAddress 0xa11

/-- The account 0x0000000000000000000000000000000000000b0b. -/
def bob : Address := BigToAddress 0xb0b

/-- The 32 bytes of the Transfer signature hash. -/
def transferTopic : Hash :=
  BigToHash 0xddf252ad1be2c89b69c2b068fc378daa952ba7f163c4a11628f55a4df523b3ef

/-- A transaction hash. -/
def txHash : Hash := BigToHash 0x2a

/-- A block hash. -/
def blockHash : Hash := BigToHash 0x07

/-- The native currency, at scale 18. -/
def native : BlockchainSettingsCurrency := { ID := "ETH", BaseFactor := 18, Options := [] }

/-- The token USDX at scale 6, configured with the checksummed form of its address. -/
def usdx : BlockchainSettingsCurrency :=
  { ID := "USDX", BaseFactor := 6,
    Options := [("erc20_contract_address", .str "0xdAC17F958D2ee523a2206206994597C13D831ec7")] }

/-- An adapter configured with the native currency and the token USDX. -/
def evm : EVM := Configure NewBlockchain ⟨[native, usdx]⟩

/-- A plain transfer of 10^18 from alice to bob, 21000 gas at price 10^12. -/
def transferTx : types.Transaction :=
  { Hash := txHash, To := some bob, Value := 1000000000000000000,
    GasPrice := 1000000000000, Gas := 21000, GasFeeCap := 1000000000000,
    Sender := .ok alice }

/-- A successful receipt of block 100 whose log list is nil. -/
def nilLogsReceipt : types.Receipt :=
  { Status := 1, GasUsed := 21000, Logs := none, BlockNumber := some 100 }

/-- A successful receipt of block 100 whose log list is present and empty. -/
def emptyLogsReceipt : types.Receipt :=
  { Status := 1, GasUsed := 21000, Logs := some [], BlockNumber := some 100 }

/-- A log of the token contract: Transfer of 0x3e8 = 1000 units from alice to bob, in
block 100. -/
def transferLog : types.Log :=
  { Address := token, Topics := [transferTopic, alice.Hash, bob.Hash], Data := [0x03, 0xe8],
    BlockNumber := 100, BlockHash := blockHash }

/-- A call of the token contract by alice, with a gas fee cap of 10^9. -/
def tokenTx : types.Transaction :=
  { Hash := txHash, To := some token, Value := 0,
    GasPrice := 1000000000, Gas := 60000, GasFeeCap := 1000000000,
    Sender := .ok alice }

/-- A successful receipt of block 100 with the one log `transferLog`. -/
def tokenReceipt : types.Receipt :=
  { Status := 1, GasUsed := 50000, Logs := some [transferLog], BlockNumber := some 100 }

/-- The record expected from `tokenTx` and `tokenReceipt`: 1000 units of USDX at the
fixed exponent -6, that is 0.001, from alice to bob, with a fee of 50000 x 10^9 at the
native scale 18. -/
def transferRecord : Transaction :=
  { Currency := "USDX"
    CurrencyFee := "ETH"
    TxHash := StringFrom "0x000000000000000000000000000000000000000000000000000000000000002a"
    FromAddresses := ["0x0000000000000000000000000000000000000a11"]
    ToAddress := "0x0000000000000000000000000000000000000b0b"
    Fee := { value := 50000000000000, exp := -18 }
    Amount := { value := 1000, exp := -6 }
    BlockNumber := 0
    Status := "success" }

/-- A call of the token contract with a gas fee cap of 10^14. -/
def costlyTx : types.Transaction :=
  { Hash := txHash, To := some token, Value := 0,
    GasPrice := 100000000000000, Gas := 120000, GasFeeCap := 100000000000000,
    Sender := .ok alice }

/-- A successful receipt that used 100000 gas, with the one log `transferLog`. -/
def costlyReceipt : types.Receipt :=
  { Status := 1, GasUsed := 100000, Logs := some [transferLog], BlockNumber := some 100 }

/-- A failed receipt that used 100000 gas, with a present, empty log list. -/
def costlyFailedReceipt : types.Receipt :=
  { Status := 0, GasUsed := 100000, Logs := some [], BlockNumber := some 100 }

/-- A token at scale 18 on the contract `token`. -/
def tkn18 : BlockchainSettingsCurrency :=
  { ID := "TKN", BaseFactor := 18,
    Options := [("erc20_contract_address", .str "0xdAC17F958D2ee523a2206206994597C13D831ec7")] }

/-- An adapter configured with the native currency and the token TKN of scale 18. -/
def evm18 : EVM := Configure NewBlockchain ⟨[native, tkn18]⟩

/-- A Transfer log of the token contract whose data is 0x0de0b6b3a7640000 = 10^18. -/
def unitLog : types.Log :=
  { Address := token, Topics := [transferTopic, alice.Hash, bob.Hash],
    Data := [0x0d, 0xe0, 0xb6, 0xb3, 0xa7, 0x64, 0x00, 0x00],
    BlockNumber := 100, BlockHash := blockHash }

/-- A successful receipt with the one log `unitLog`. -/
def unitReceipt : types.Receipt :=
  { Status := 1, GasUsed := 50000, Logs := some [unitLog], BlockNumber := some 100 }

/-- A Transfer log of the token contract with the zero block hash and block number 0. -/
def unconfirmedLog : types.Log :=
  { Address := token, Topics := [transferTopic, alice.Hash, bob.Hash], Data := [0x03, 0xe8],
    BlockNumber := 0, BlockHash := Hash.zero }

/-- A successful receipt with the one log `unconfirmedLog`. -/
def unconfirmedReceipt : types.Receipt :=
  { Status := 1, GasUsed := 50000, Logs := some [unconfirmedLog], BlockNumber := some 100 }

/-- The token USDX configured with the lower-case form of its address. -/
def lowerUsdx : BlockchainSettingsCurrency :=
  { ID := "USDX", BaseFactor := 6,
    Options := [("erc20_contract_address", .str "0xdac17f958d2ee523a2206206994597c13d831ec7")] }

/-- An adapter configured with the native currency and `lowerUsdx`. -/
def lowerEvm : EVM := Configure NewBlockchain ⟨[native, lowerUsdx]⟩

/-- A failed receipt of block 100 with a present, empty log list. -/
def failedReceipt : types.Receipt :=
  { Status := 0, GasUsed := 50000, Logs := some [], BlockNumber := some 100 }

/-- A contract creation by alice: no recipient. -/
def creationTx : types.Transaction :=
  { Hash := txHash, To := none, Value := 0,
    GasPrice := 1000000000, Gas := 60000, GasFeeCap := 1000000000,
    Sender := .ok alice }

/-- A log of the token contract with the Transfer signature and one more topic. -/
def twoTopicLog : types.Log :=
  { Address := token, Topics := [transferTopic, alice.Hash], Data := [0x03, 0xe8],
    BlockNumber := 100, BlockHash := blockHash }

/-- A successful receipt with the one log `twoTopicLog`. -/
def twoTopicReceipt : types.Receipt :=
  { Status := 1, GasUsed := 50000, Logs := some [twoTopicLog], BlockNumber := some 100 }

/-- The fallback record expected from `tokenTx` and `failedReceipt`. -/
def fallbackRecord : Transaction :=
  { Currency := "USDX"
    CurrencyFee := "ETH"
    TxHash := StringFrom "0x000000000000000000000000000000000000000000000000000000000000002a"
    FromAddresses := []
    ToAddress := ""
    Fee := { value := 50000000000000, exp := -18 }
    Amount := { value := 0, exp := 0 }
    BlockNumber := 100
    Status := "failed" }

/-- A Transfer log of the token contract with an empty data payload. -/
def emptyDataLog : types.Log :=
  { Address := token, Topics := [transferTopic, alice.Hash, bob.Hash], Data := [],
    BlockNumber := 100, BlockHash := blockHash }

/-- A successful receipt with the logs `emptyDataLog` and `transferLog`. -/
def emptyDataReceipt : types.Receipt :=
  { Status := 1, GasUsed := 50000, Logs := some [emptyDataLog, transferLog],
    BlockNumber := some 100 }

/-- The record the code builds from `emptyDataLog`: like `transferRecord`, with amount 0. -/
def zeroAmountRecord : Transaction :=
  { transferRecord with Amount := { value := 0, exp := -6 } }

/-- The topic-0 value of an ERC-20 `Approval` event. -/
def approvalTopic : Hash :=
  BigToHash 0x8c5be1e5ebec7d5bd14f71427d1e84f3dd0314c0f7b2291e5b200ac8c7c3b925

/-- An Approval log of the token contract. -/
def approvalLog : types.Log :=
  { Address := token, Topics := [approvalTopic, alice.Hash, bob.Hash], Data := [0x03, 0xe8],
    BlockNumber := 100, BlockHash := blockHash }

/-- A log of the token contract without topics. -/
def noTopicLog : types.Log :=
  { Address := token, Topics := [], Data := [0x03, 0xe8],
    BlockNumber := 100, BlockHash := blockHash }

/-- A successful receipt with an Approval log, a Transfer log and a log without topics. -/
def mixedReceipt : types.Receipt :=
  { Status := 1, GasUsed := 50000, Logs := some [approvalLog, transferLog, noTopicLog],
    BlockNumber := some 100 }

/-- A receipt with status code 0 whose one log is an Approval log. -/
def failedApprovalReceipt : types.Receipt :=
  { Status := 0, GasUsed := 50000, Logs := some [approvalLog], BlockNumber := some 100 }

/-- A successful receipt that used 90000 gas, with the one log `transferLog`. -/
def lessGasReceipt : types.Receipt :=
  { Status := 1, GasUsed := 90000, Logs := some [transferLog], BlockNumber := some 100 }

/-- A second token, of scale 8, configured with the address 0x…0b0b. -/
def other : BlockchainSettingsCurrency :=
  { ID := "OTH", BaseFactor := 8,
    Options := [("erc20_contract_address", .str "0x0000000000000000000000000000000000000b0b")] }

/-- A second currency without a contract address. -/
def native2 : BlockchainSettingsCurrency := { ID := "ETC", BaseFactor := 18, Options := [] }

/-- Settings with two currencies without a contract address and two tokens. -/
def settings : BlockchainSettings := ⟨[native, usdx, native2, other]⟩

/-- An adapter configured with `settings`: the tokens USDX and OTH, the native currency
ETC. -/
def evm2 : EVM := Configure NewBlockchain settings

end evm.sample

/-! ## Theorems -/

namespace evm

/-! ### Arithmetic and encoding lemmas -/

theorem Hash.Bytes_length (h : Hash) : h.Bytes.length = 32 := h.size

theorem Bytes2Hex_length (d : List Byte) : (Bytes2Hex d).data.length = 2 * d.length := by
  induction d with
  | nil => rfl
  | cons x xs ih =>
    simp only [Bytes2Hex, List.flatMap_cons, List.length_append, List.length_cons,
      List.length_nil] at ih ⊢
    omega

theorem Hash.Hex_length (h : Hash) : h.Hex.data.length = 66 := by
  have := Bytes2Hex_length h.bytes
  simp only [Hash.Hex, String.data_append, List.length_append, this, h.size]
  rfl

theorem negInt32_eq (x : Int) (h1 : -2147483648 < x) (h2 : x < 2147483648) :
    negInt32 x = -x := by
  unfold negInt32 wrapInt32
  omega

theorem bigInt64_eq (n : Int) (h1 : 0 ≤ n) (h2 : n < 9223372036854775808) :
    bigInt64 n = n := by
  unfold bigInt64 int64OfUint64
  have h3 : ((n.natAbs : Nat) : Int) = n := Int.natAbs_of_nonneg h1
  have h4 : n.natAbs % 18446744073709551616 = n.natAbs := by
    apply Nat.mod_eq_of_lt
    omega
  simp only [h4]
  split_ifs <;> omega

theorem int64OfUint64_mulUint64 (g : Nat) (p : Int) (hp : 0 ≤ p)
    (h : (g : Int) * p < 9223372036854775808) :
    int64OfUint64 (mulUint64 g (bigUint64 p)) = (g : Int) * p := by
  obtain ⟨n, rfl⟩ := Int.eq_ofNat_of_zero_le hp
  have hlt : g * n < 9223372036854775808 := by exact_mod_cast h
  have h1 : mulUint64 g (bigUint64 (n : Int)) = g * n := by
    unfold mulUint64 bigUint64
    simp only [Int.natAbs_ofNat]
    rw [Nat.mul_mod, Nat.mod_mod, ← Nat.mul_mod]
    apply Nat.mod_eq_of_lt
    omega
  rw [h1]
  unfold int64OfUint64
  rw [if_pos hlt]
  push_cast
  rfl

/-! ### Known answers of the hash and of the checksummed form -/

theorem Keccak256_empty :
    Keccak256 [] =
      (BigToHash 0xc5d2460186f7233c927e7db2dcc703c0e500b653ca82273b7bfad8045d85a470).bytes.map
        Fin.val := by
  decide!

theorem Address.Hex_eip55_vector :
    (BigToAddress 0x5aaeb6053f3e94c9b9a09f33669435e7ef1beaed).Hex =
      "0x5aAeb6053F3E94C9b9A09f33669435E7Ef1BeAed" := by
  decide!

theorem tokenEventIdentifier_eq :
    (BigToHash 0xddf252ad1be2c89b69c2b068fc378daa952ba7f163c4a11628f55a4df523b3ef).Hex =
      tokenEventIdentifier := by
  decide

/-! ### The status classifier -/

/-- C3: the status classifier is defined on every receipt and depends on the status code
alone: code 1 gives success, code 0 gives failed, every other code gives pending. -/
theorem transactionStatus_classifies (receipt : types.Receipt) :
    (receipt.Status = 1 → transactionStatus receipt = TransactionStatusSuccess) ∧
    (receipt.Status = 0 → transactionStatus receipt = TransactionStatusFailed) ∧
    (receipt.Status ≠ 1 → receipt.Status ≠ 0 →
      transactionStatus receipt = TransactionStatusPending) := by
  refine ⟨fun h => ?_, fun h => ?_, fun h1 h0 => ?_⟩
  · simp [transactionStatus, h]
  · simp [transactionStatus, h]
  · unfold transactionStatus
    split
    · next h => exact absurd h h1
    · next h => exact absurd h h0
    · rfl

/-- The classifier at the codes 1, 0 and 2. -/
theorem transactionStatus_classifies_witness :
    ((1 : Nat) = 1 ∧
      transactionStatus { sample.nilLogsReceipt with Status := 1 } = TransactionStatusSuccess) ∧
    ((0 : Nat) = 0 ∧
      transactionStatus { sample.nilLogsReceipt with Status := 0 } = TransactionStatusFailed) ∧
    ((2 : Nat) ≠ 1 ∧ (2 : Nat) ≠ 0 ∧
      transactionStatus { sample.nilLogsReceipt with Status := 2 } = TransactionStatusPending) :=
  ⟨⟨rfl, (transactionStatus_classifies { sample.nilLogsReceipt with Status := 1 }).1 rfl⟩,
   ⟨rfl, (transactionStatus_classifies { sample.nilLogsReceipt with Status := 0 }).2.1 rfl⟩,
   ⟨by decide, by decide,
    (transactionStatus_classifies { sample.nilLogsReceipt with Status := 2 }).2.2
      (by decide) (by decide)⟩⟩

/-! ### Decimals -/

theorem Decimal.rescale_self (d : Decimal) : d.rescale d.exp = d := by
  simp [Decimal.rescale]

theorem Decimal.Add_Sub_cancel (a c : Int) (e : Int) :
    (NewFromBigInt a e).Add ((NewFromBigInt c e).Sub (NewFromBigInt a e)) =
      NewFromBigInt c e := by
  simp [Decimal.Add, Decimal.Sub, Decimal.rescale, NewFromBigInt]

theorem Decimal.toRat_NewFromBigInt (a : Int) (e : Int) :
    (NewFromBigInt a e).toRat = (a : ℚ) * (10 : ℚ) ^ e := rfl

theorem Decimal.toRat_Sub_same (c a : Int) (e : Int) :
    ((NewFromBigInt c e).Sub (NewFromBigInt a e)).toRat =
      (c : ℚ) * (10 : ℚ) ^ e - (a : ℚ) * (10 : ℚ) ^ e := by
  simp [Decimal.Sub, Decimal.rescale, NewFromBigInt, Decimal.toRat]
  ring

/-! ### Native transfers -/

theorem buildETHTransactions_eq (b : EVM) (tx : types.Transaction)
    (receipt : types.Receipt) (currency : BlockchainSettingsCurrency)
    (sender recipient : Address) (hcur : b.currency = some currency)
    (hsender : tx.Sender = .ok sender) (hto : tx.To = some recipient) :
    buildETHTransactions b tx receipt = .ok
      [{ Currency := currency.ID
         CurrencyFee := currency.ID
         TxHash := StringFrom tx.Hash.Hex
         FromAddresses := [sender.Hex]
         ToAddress := recipient.Hex
         Fee := (NewFromBigInt tx.Cost (negInt32 currency.BaseFactor)).Sub
           (NewFromBigInt tx.Value (negInt32 currency.BaseFactor))
         Amount := NewFromBigInt tx.Value (negInt32 currency.BaseFactor)
         Status := transactionStatus receipt }] := by
  simp only [buildETHTransactions, types.Transaction.AsMessage, hsender, hcur, hto]

theorem buildETHTransactions_record (b : EVM) (tx : types.Transaction)
    (receipt : types.Receipt) (currency : BlockchainSettingsCurrency)
    (sender recipient : Address) (hcur : b.currency = some currency)
    (hsender : tx.Sender = .ok sender) (hto : tx.To = some recipient)
    (hlo : -2147483648 < currency.BaseFactor) (hhi : currency.BaseFactor < 2147483648) :
    ∃ r : Transaction,
      buildETHTransactions b tx receipt = .ok [r] ∧
      r.Amount = NewFromBigInt tx.Value (-currency.BaseFactor) ∧
      r.Amount.Add r.Fee = NewFromBigInt tx.Cost (-currency.BaseFactor) ∧
      r.Amount.toRat = (tx.Value : ℚ) * (10 : ℚ) ^ (-currency.BaseFactor) ∧
      r.Amount.toRat + r.Fee.toRat = (tx.Cost : ℚ) * (10 : ℚ) ^ (-currency.BaseFactor) ∧
      r.Currency = currency.ID ∧ r.CurrencyFee = currency.ID ∧
      r.FromAddresses = [sender.Hex] ∧ r.ToAddress = recipient.Hex ∧
      r.TxHash = StringFrom tx.Hash.Hex ∧ r.Status = transactionStatus receipt := by
  have hneg := negInt32_eq currency.BaseFactor hlo hhi
  have h : buildETHTransactions b tx receipt = .ok
      [{ Currency := currency.ID
         CurrencyFee := currency.ID
         TxHash := StringFrom tx.Hash.Hex
         FromAddresses := [sender.Hex]
         ToAddress := recipient.Hex
         Fee := (NewFromBigInt tx.Cost (-currency.BaseFactor)).Sub
           (NewFromBigInt tx.Value (-currency.BaseFactor))
         Amount := NewFromBigInt tx.Value (-currency.BaseFactor)
         Status := transactionStatus receipt }] := by
    rw [buildETHTransactions_eq b tx receipt currency sender recipient hcur hsender hto, hneg]
  refine ⟨_, h, rfl, ?_, rfl, ?_, rfl, rfl, rfl, rfl, rfl, rfl⟩
  · exact Decimal.Add_Sub_cancel _ _ _
  · show Decimal.toRat (NewFromBigInt _ _) + Decimal.toRat (Decimal.Sub _ _) = _
    rw [Decimal.toRat_Sub_same, Decimal.toRat_NewFromBigInt]
    ring

theorem buildTransaction_logs_present (b : EVM) (tx : types.Transaction)
    (receipt : types.Receipt) (ls : List types.Log) (hlogs : receipt.Logs = some ls) :
    buildTransaction b (.ok receipt) tx = buildERC20Transactions b tx receipt := by
  simp [buildTransaction, hlogs]

theorem buildERC20Transactions_no_logs (b : EVM) (tx : types.Transaction)
    (receipt : types.Receipt) (currency : BlockchainSettingsCurrency)
    (hcur : b.currency = some currency) (hlogs : receipt.logs = [])
    (hstatus : transactionStatus receipt ≠ TransactionStatusFailed) :
    buildERC20Transactions b tx receipt = .ok [] := by
  unfold buildERC20Transactions
  rw [if_neg (fun h => hstatus h.1)]
  simp only [hcur, hlogs]
  rfl

theorem buildTransaction_empty_logs (b : EVM) (tx : types.Transaction)
    (receipt : types.Receipt) (currency : BlockchainSettingsCurrency)
    (hcur : b.currency = some currency) (hlogs : receipt.Logs = some [])
    (hstatus : receipt.Status ≠ 0) :
    buildTransaction b (.ok receipt) tx = .ok [] := by
  rw [buildTransaction_logs_present b tx receipt [] hlogs]
  apply buildERC20Transactions_no_logs b tx receipt currency hcur
  · simp [types.Receipt.logs, hlogs]
  · unfold transactionStatus
    split
    · decide
    · next h => exact absurd h hstatus
    · decide

/-- C1: a plain transfer of 10^18 with cost 1.021 x 10^18 whose receipt has a present log
list with zero entries, the form in which the RPC client delivers a receipt without logs,
is taken by the token path by the test of line 164, and normalisation returns no record
where the claim has exactly one. The native builder, called on the same transaction and
receipt, returns the one record of the claim: amount 1, fee 0.021, amount + fee = cost,
from the sender to the recipient. -/
theorem buildTransaction_empty_logs_no_record :
    sample.emptyLogsReceipt.Logs = some [] ∧
    sample.transferTx.Value = 1000000000000000000 ∧
    sample.transferTx.Cost = 1021000000000000000 ∧
    buildTransaction sample.evm (.ok sample.emptyLogsReceipt) sample.transferTx = .ok [] ∧
    (¬ ∃ r : Transaction,
      buildTransaction sample.evm (.ok sample.emptyLogsReceipt) sample.transferTx =
        .ok [r]) ∧
    ∃ r : Transaction,
      buildETHTransactions sample.evm sample.transferTx sample.emptyLogsReceipt = .ok [r] ∧
      r.Amount.toRat = 1 ∧ r.Fee.toRat = 21 / 1000 ∧
      r.Amount.Add r.Fee = NewFromBigInt sample.transferTx.Cost (-18) ∧
      r.Currency = "ETH" ∧
      r.FromAddresses = [sample.alice.Hex] ∧ r.ToAddress = sample.bob.Hex := by
  have h : buildTransaction sample.evm (.ok sample.emptyLogsReceipt) sample.transferTx
      = .ok [] := by decide
  refine ⟨rfl, rfl, by decide, h, ?_, ?_⟩
  · rintro ⟨r, hr⟩
    rw [h] at hr
    cases hr
  · refine ⟨_, buildETHTransactions_eq sample.evm sample.transferTx sample.emptyLogsReceipt
      sample.native sample.alice sample.bob rfl rfl rfl, ?_, ?_, ?_, rfl, rfl, rfl⟩
    · norm_num [NewFromBigInt, Decimal.toRat, negInt32, wrapInt32, sample.transferTx,
        sample.native]
    · norm_num [NewFromBigInt, Decimal.toRat, Decimal.Sub, Decimal.rescale, negInt32,
        wrapInt32, types.Transaction.Cost, sample.transferTx, sample.native]
    · decide

/-! ### The token path -/

theorem foldl_append_filter {α β : Type} (p : α → Bool) (f : α → β) (cs : List α)
    (acc : List β) :
    cs.foldl (fun acc c => if p c then acc ++ [f c] else acc) acc =
      acc ++ (cs.filter p).map f := by
  induction cs generalizing acc with
  | nil => simp
  | cons c cs ih =>
    rw [List.foldl_cons, ih]
    by_cases hp : p c = true
    · simp [hp]
    · simp [hp]

theorem decodeTransfer_guard (l : types.Log)
    (hg : l.BlockHash.Bytes.length = 0 ∧ l.BlockNumber = 0) : decodeTransfer l = none := by
  simp [decodeTransfer, hg]

theorem decodeTransfer_no_topics (l : types.Log) (hT : l.Topics = []) :
    decodeTransfer l = none := by
  unfold decodeTransfer
  split_ifs
  · rfl
  · rw [hT]

theorem decodeTransfer_other_topic (l : types.Log) (t0 : Hash) (rest : List Hash)
    (hT : l.Topics = t0 :: rest) (ht : ¬ t0.Hex = tokenEventIdentifier) :
    decodeTransfer l = none := by
  unfold decodeTransfer
  split_ifs
  · rfl
  · rw [hT]
    rcases rest with _ | ⟨t1, _ | ⟨t2, rest⟩⟩
    · rfl
    · rfl
    · simp [ht]

theorem decodeTransfer_three_topics (l : types.Log) (t0 t1 t2 : Hash) (rest : List Hash)
    (hg : ¬ (l.BlockHash.Bytes.length = 0 ∧ l.BlockNumber = 0))
    (hT : l.Topics = t0 :: t1 :: t2 :: rest) (ht : t0.Hex = tokenEventIdentifier) :
    decodeTransfer l =
      some ("0x" ++ sliceFrom t1.Hex 26, "0x" ++ sliceFrom t2.Hex 26, logValue l) := by
  unfold decodeTransfer
  rw [if_neg hg, hT]
  simp [ht]

theorem transferRecords_none (contracts : List BlockchainSettingsCurrency)
    (currency : BlockchainSettingsCurrency) (tx : types.Transaction)
    (receipt : types.Receipt) (l : types.Log) (h : decodeTransfer l = none) :
    transferRecords contracts currency tx receipt l = [] := by
  simp [transferRecords, h]

theorem erc20Logs_eq (b : EVM) (currency : BlockchainSettingsCurrency)
    (tx : types.Transaction) (receipt : types.Receipt) (ls : List types.Log)
    (acc : List Transaction)
    (h : ∀ l ∈ ls, hasTransferTopic l = true → 3 ≤ l.Topics.length) :
    erc20Logs b currency tx receipt (gasFee currency tx receipt) ls acc =
      .ok (acc ++ ls.flatMap (transferRecords b.contracts currency tx receipt)) := by
  induction ls generalizing acc with
  | nil => simp [erc20Logs]
  | cons l ls ih =>
    have hls : ∀ l' ∈ ls, hasTransferTopic l' = true → 3 ≤ l'.Topics.length :=
      fun l' hl' => h l' (List.mem_cons_of_mem _ hl')
    have hl := h l (List.mem_cons_self _ _)
    rw [erc20Logs, List.flatMap_cons]
    by_cases hg : l.BlockHash.Bytes.length = 0 ∧ l.BlockNumber = 0
    · rw [if_pos hg, ih _ hls, transferRecords_none _ _ _ _ _ (decodeTransfer_guard l hg)]
      rfl
    · rw [if_neg hg]
      rcases hT : l.Topics with _ | ⟨t0, rest⟩
      · simp only []
        rw [ih _ hls, transferRecords_none _ _ _ _ _ (decodeTransfer_no_topics l hT)]
        rfl
      · by_cases ht : t0.Hex = tokenEventIdentifier
        · have h3 := hl (by simp [hasTransferTopic, hT, ht])
          rw [hT] at h3
          rcases rest with _ | ⟨t1, _ | ⟨t2, rest⟩⟩
          · simp at h3
          · simp at h3
          · simp only [ht, ne_eq, not_true_eq_false, if_false, List.get?_cons_succ,
              List.get?_cons_zero]
            rw [foldl_append_filter
              (fun (c : BlockchainSettingsCurrency) =>
                ifaceEqString (c.option "erc20_contract_address") l.Address.Hex)
              (fun (c : BlockchainSettingsCurrency) =>
                erc20Record currency c tx receipt ("0x" ++ sliceFrom t1.Hex 26)
                  ("0x" ++ sliceFrom t2.Hex 26) (gasFee currency tx receipt) (logValue l)),
              ih _ hls]
            simp only [transferRecords, decodeTransfer_three_topics l t0 t1 t2 rest hg hT ht,
              List.append_assoc]
            rfl
        · simp only [ne_eq, ht, not_false_eq_true, if_true]
          rw [ih _ hls,
            transferRecords_none _ _ _ _ _ (decodeTransfer_other_topic l t0 rest hT ht)]
          rfl

/-- C4: with 100000 gas used and a gas fee cap of 10^14 the exact product is 10^19, above
2^63; the fee of the code is the wrapped value 10^19 - 2^64 at scale 18, a negative
number, in the record of the token path and in the record of the fallback alike. -/
theorem gasFee_wraps_negative :
    (sample.costlyReceipt.GasUsed : Int) * sample.costlyTx.GasFeeCap =
      10000000000000000000 ∧
    gasFee sample.native sample.costlyTx sample.costlyReceipt =
      NewFromBigInt (-8446744073709551616) (-18) ∧
    (gasFee sample.native sample.costlyTx sample.costlyReceipt).toRat < 0 ∧
    buildERC20Transactions sample.evm sample.costlyTx sample.costlyReceipt =
      .ok [{ sample.transferRecord with Fee := NewFromBigInt (-8446744073709551616) (-18) }] ∧
    buildERC20Transactions sample.evm sample.costlyTx sample.costlyFailedReceipt =
      .ok [{ Currency := "USDX"
             CurrencyFee := "ETH"
             TxHash := StringFrom sample.txHash.Hex
             BlockNumber := 100
             Fee := NewFromBigInt (-8446744073709551616) (-18)
             Status := "failed" }] := by
  refine ⟨by decide, by decide, ?_, by decide!, by decide!⟩
  have h : gasFee sample.native sample.costlyTx sample.costlyReceipt =
      NewFromBigInt (-8446744073709551616) (-18) := by decide
  rw [h]
  norm_num [NewFromBigInt, Decimal.toRat]

/-! ### The amount of a token transfer -/

/-- C5: for a token configured at scale 18, a Transfer log whose data is 10^18 gives a
record whose amount is 10^18 x 10^-6 = 10^12, not 10^18 x 10^-18 = 1: the exponent is the
constant -6, whatever the scale of the entry. -/
theorem buildERC20Transactions_amount_fixed_scale :
    sample.tkn18.BaseFactor = 18 ∧
    setStringBase16 (Bytes2Hex sample.unitLog.Data) = 1000000000000000000 ∧
    buildERC20Transactions sample.evm18 sample.tokenTx sample.unitReceipt =
      .ok [{ sample.transferRecord with
             Currency := "TKN", Amount := NewFromBigInt 1000000000000000000 (-6) }] ∧
    (NewFromBigInt 1000000000000000000 (-6)).toRat = 1000000000000 ∧
    (NewFromBigInt 1000000000000000000 (-sample.tkn18.BaseFactor)).toRat = 1 := by
  refine ⟨rfl, by decide, by decide!, ?_, ?_⟩
  · norm_num [NewFromBigInt, Decimal.toRat]
  · norm_num [NewFromBigInt, Decimal.toRat, sample.tkn18]

/-! ### The block guard of line 204 -/

/-- The guard of line 204 never holds: the slice over a hash has 32 bytes. -/
theorem block_guard_never_holds (l : types.Log) :
    ¬ (l.BlockHash.Bytes.length = 0 ∧ l.BlockNumber = 0) := by
  rw [Hash.Bytes_length]
  simp

/-- C6: a Transfer log of a registered token with the zero block hash and block number 0
is not skipped; the token path returns a record for it. -/
theorem buildERC20Transactions_unconfirmed_log_kept :
    sample.unconfirmedLog.BlockHash = Hash.zero ∧ sample.unconfirmedLog.BlockNumber = 0 ∧
    buildERC20Transactions sample.evm sample.tokenTx sample.unconfirmedReceipt =
      .ok [sample.transferRecord] := by
  refine ⟨rfl, rfl, by decide!⟩

/-! ### Matching of registry entries and the fallback -/

theorem ifaceEqString_iff (v : Option OptionValue) (s : String) :
    ifaceEqString v s = true ↔ v = some (.str s) := by
  unfold ifaceEqString
  split
  · next t => simp
  · next h =>
    simp only [Bool.false_eq_true, false_iff]
    intro hv
    exact h s hv

theorem matchesContract_iff (c : BlockchainSettingsCurrency) (a : Address) :
    matchesContract c a = true ↔
      c.option "erc20_contract_address" = some (.str a.Hex) :=
  ifaceEqString_iff _ _

theorem transactionStatus_failed (receipt : types.Receipt) (h : receipt.Status = 0) :
    transactionStatus receipt = TransactionStatusFailed := by
  simp [transactionStatus, h]

theorem invalidErc20Contracts_eq (currency : BlockchainSettingsCurrency)
    (tx : types.Transaction) (receipt : types.Receipt) (fee : Decimal)
    (recipient : Address) (n : Int) (hto : tx.To = some recipient)
    (hbn : receipt.BlockNumber = some n) (cs : List BlockchainSettingsCurrency)
    (acc : List Transaction) :
    invalidErc20Contracts currency tx receipt fee cs acc =
      .ok (acc ++ fallbackRecords cs currency tx recipient (bigInt64 n) fee
        (transactionStatus receipt)) := by
  induction cs generalizing acc with
  | nil => simp [invalidErc20Contracts, fallbackRecords]
  | cons c cs ih =>
    rw [invalidErc20Contracts]
    simp only [hto, hbn]
    by_cases hm : ifaceEqString (c.option "erc20_contract_address") recipient.Hex = true
    · rw [if_pos hm, ih]
      simp [fallbackRecords, matchesContract, hm, invalidErc20Record, Decimal.zero]
    · rw [if_neg hm, ih]
      simp [fallbackRecords, matchesContract, hm]

theorem buildERC20Transactions_fallback (b : EVM) (tx : types.Transaction)
    (receipt : types.Receipt) (currency : BlockchainSettingsCurrency)
    (recipient : Address) (n : Int)
    (hstatus : receipt.Status = 0) (hlogs : receipt.Logs = some [])
    (hcur : b.currency = some currency) (hto : tx.To = some recipient)
    (hbn : receipt.BlockNumber = some n) :
    buildERC20Transactions b tx receipt =
      .ok (fallbackRecords b.contracts currency tx recipient (bigInt64 n)
        (gasFee currency tx receipt) TransactionStatusFailed) := by
  have hs := transactionStatus_failed receipt hstatus
  have hlen : receipt.logs.length = 0 := by simp [types.Receipt.logs, hlogs]
  unfold buildERC20Transactions
  rw [if_pos ⟨hs, hlen⟩]
  unfold buildInvalidErc20Transaction
  simp only [hcur]
  rw [invalidErc20Contracts_eq currency tx receipt _ recipient n hto hbn, hs]
  simp

/-- C7, as stated, fails: an entry configured with the lower-case form of the token
address equals the form `Hex()` of the address up to letter case, yet neither a Transfer
log of that contract nor a failed call to it gives a record. -/
theorem lower_case_entry_not_matched :
    sample.lowerUsdx.option "erc20_contract_address" =
      some (.str "0xdac17f958d2ee523a2206206994597c13d831ec7") ∧
    sample.token.Hex = "0xdAC17F958D2ee523a2206206994597C13D831ec7" ∧
    equalFold "0xdac17f958d2ee523a2206206994597c13d831ec7" sample.token.Hex = true ∧
    matchesContract sample.lowerUsdx sample.token = false ∧
    buildTransaction sample.lowerEvm (.ok sample.tokenReceipt) sample.tokenTx = .ok [] ∧
    buildTransaction sample.lowerEvm (.ok sample.failedReceipt) sample.tokenTx = .ok [] := by
  have hx : sample.token.Hex = "0xdAC17F958D2ee523a2206206994597C13D831ec7" := by decide!
  have hm : matchesContract sample.lowerUsdx sample.token = false := by
    unfold matchesContract
    rw [hx]
    decide
  refine ⟨by decide, hx, ?_, hm, by decide!, by decide!⟩
  rw [hx]
  decide

theorem filter_matchesContract (cs : List BlockchainSettingsCurrency) (a : Address) :
    (cs.filter fun c => matchesContract c a) =
      cs.filter fun c => decide (c.option "erc20_contract_address" = some (.str a.Hex)) := by
  apply List.filter_congr
  intro c _
  rw [Bool.eq_iff_iff]
  simp [matchesContract_iff]

/-- C7, amended: matching is exact equality of strings, at both match sites and for every
registry. With the native currency configured, on a call that is not the fallback and in
which every log with the Transfer signature has three topics, the token path returns, for
each decoded log in order, exactly one record per registry entry, in registry order, whose
`erc20_contract_address` option holds a string equal character for character to the form
`Hex()` of the emitting address, and no record when no entry holds that string. For a
failed receipt with a present, empty log list, a recipient and a block number, the fallback
returns exactly one record per registry entry whose option holds the form `Hex()` of the
recipient, and no record when no entry holds that string. -/
theorem matching_is_exact (b : EVM) (tx : types.Transaction) (receipt : types.Receipt)
    (currency : BlockchainSettingsCurrency) (hcur : b.currency = some currency) :
    (¬ (transactionStatus receipt = TransactionStatusFailed ∧ receipt.logs.length = 0) →
      (∀ l ∈ receipt.logs, hasTransferTopic l = true → 3 ≤ l.Topics.length) →
      buildERC20Transactions b tx receipt = .ok
        (receipt.logs.flatMap fun l =>
          match decodeTransfer l with
          | none => []
          | some (fromAddress, toAddress, value) =>
            (b.contracts.filter fun c =>
              decide (c.option "erc20_contract_address" =
                some (.str l.Address.Hex))).map fun c =>
              { Currency := c.ID
                CurrencyFee := currency.ID
                TxHash := StringFrom tx.Hash.Hex
                FromAddresses := [fromAddress]
                ToAddress := toAddress
                Fee := gasFee currency tx receipt
                Amount := value
                Status := transactionStatus receipt }) ∧
      ((∀ l ∈ receipt.logs, ∀ c ∈ b.contracts,
          c.option "erc20_contract_address" ≠ some (.str l.Address.Hex)) →
        buildERC20Transactions b tx receipt = .ok [])) ∧
    (∀ (a : Address) (n : Int),
      receipt.Status = 0 → receipt.Logs = some [] → tx.To = some a →
      receipt.BlockNumber = some n →
      buildERC20Transactions b tx receipt = .ok
        ((b.contracts.filter fun c =>
          decide (c.option "erc20_contract_address" = some (.str a.Hex))).map fun c =>
          { Currency := c.ID
            CurrencyFee := currency.ID
            TxHash := StringFrom tx.Hash.Hex
            BlockNumber := bigInt64 n
            Fee := gasFee currency tx receipt
            Status := TransactionStatusFailed }) ∧
      ((∀ c ∈ b.contracts, c.option "erc20_contract_address" ≠ some (.str a.Hex)) →
        buildERC20Transactions b tx receipt = .ok [])) := by
  constructor
  · intro hpath htopics
    have hmain : buildERC20Transactions b tx receipt = .ok
        (receipt.logs.flatMap fun l =>
          match decodeTransfer l with
          | none => []
          | some (fromAddress, toAddress, value) =>
            (b.contracts.filter fun c =>
              decide (c.option "erc20_contract_address" =
                some (.str l.Address.Hex))).map fun c =>
              { Currency := c.ID
                CurrencyFee := currency.ID
                TxHash := StringFrom tx.Hash.Hex
                FromAddresses := [fromAddress]
                ToAddress := toAddress
                Fee := gasFee currency tx receipt
                Amount := value
                Status := transactionStatus receipt }) := by
      unfold buildERC20Transactions
      rw [if_neg hpath]
      simp only [hcur]
      rw [erc20Logs_eq b currency tx receipt receipt.logs [] htopics, List.nil_append]
      congr 1
      apply List.flatMap_congr
      intro l _
      unfold transferRecords
      rw [filter_matchesContract]
    refine ⟨hmain, ?_⟩
    intro hno
    rw [hmain]
    congr 1
    apply List.flatMap_eq_nil_iff.mpr
    intro l hl
    split
    · rfl
    · have : (b.contracts.filter fun c =>
          decide (c.option "erc20_contract_address" = some (.str l.Address.Hex))) = [] := by
        apply List.filter_eq_nil_iff.mpr
        intro c hc
        simpa using hno l hl c hc
      rw [this]
      rfl
  · intro a n hstatus hlogs hto hbn
    have hmain : buildERC20Transactions b tx receipt = .ok
        ((b.contracts.filter fun c =>
          decide (c.option "erc20_contract_address" = some (.str a.Hex))).map fun c =>
          { Currency := c.ID
            CurrencyFee := currency.ID
            TxHash := StringFrom tx.Hash.Hex
            BlockNumber := bigInt64 n
            Fee := gasFee currency tx receipt
            Status := TransactionStatusFailed }) := by
      rw [buildERC20Transactions_fallback b tx receipt currency a n hstatus hlogs hcur hto
        hbn]
      unfold fallbackRecords
      rw [filter_matchesContract]
    refine ⟨hmain, ?_⟩
    intro hno
    rw [hmain]
    have : (b.contracts.filter fun c =>
        decide (c.option "erc20_contract_address" = some (.str a.Hex))) = [] := by
      apply List.filter_eq_nil_iff.mpr
      intro c hc
      simpa using hno c hc
    rw [this]
    rfl

/-- A registry of two tokens, the first configured with the checksummed form of the token
address: a decoded log of the token and a failed call to it each give the one record of the
first entry. -/
theorem matching_is_exact_witness :
    sample.evm2.currency = some sample.native2 ∧
    sample.evm2.contracts = [sample.usdx, sample.other] ∧
    ¬ (transactionStatus sample.tokenReceipt = TransactionStatusFailed ∧
      sample.tokenReceipt.logs.length = 0) ∧
    (∀ l ∈ sample.tokenReceipt.logs, hasTransferTopic l = true → 3 ≤ l.Topics.length) ∧
    (buildERC20Transactions sample.evm2 sample.tokenTx sample.tokenReceipt = .ok
        (sample.tokenReceipt.logs.flatMap fun l =>
          match decodeTransfer l with
          | none => []
          | some (fromAddress, toAddress, value) =>
            (sample.evm2.contracts.filter fun c =>
              decide (c.option "erc20_contract_address" =
                some (.str l.Address.Hex))).map fun c =>
              { Currency := c.ID
                CurrencyFee := sample.native2.ID
                TxHash := StringFrom sample.tokenTx.Hash.Hex
                FromAddresses := [fromAddress]
                ToAddress := toAddress
                Fee := gasFee sample.native2 sample.tokenTx sample.tokenReceipt
                Amount := value
                Status := transactionStatus sample.tokenReceipt }) ∧
      ((∀ l ∈ sample.tokenReceipt.logs, ∀ c ∈ sample.evm2.contracts,
          c.option "erc20_contract_address" ≠ some (.str l.Address.Hex)) →
        buildERC20Transactions sample.evm2 sample.tokenTx sample.tokenReceipt = .ok [])) ∧
    sample.failedReceipt.Status = 0 ∧ sample.failedReceipt.Logs = some [] ∧
    sample.tokenTx.To = some sample.token ∧ sample.failedReceipt.BlockNumber = some 100 ∧
    (buildERC20Transactions sample.evm2 sample.tokenTx sample.failedReceipt = .ok
        ((sample.evm2.contracts.filter fun c =>
          decide (c.option "erc20_contract_address" =
            some (.str sample.token.Hex))).map fun c =>
          { Currency := c.ID
            CurrencyFee := sample.native2.ID
            TxHash := StringFrom sample.tokenTx.Hash.Hex
            BlockNumber := bigInt64 100
            Fee := gasFee sample.native2 sample.tokenTx sample.failedReceipt
            Status := TransactionStatusFailed }) ∧
      ((∀ c ∈ sample.evm2.contracts,
          c.option "erc20_contract_address" ≠ some (.str sample.token.Hex)) →
        buildERC20Transactions sample.evm2 sample.tokenTx sample.failedReceipt = .ok [])) ∧
    buildERC20Transactions sample.evm2 sample.tokenTx sample.tokenReceipt =
      .ok [{ sample.transferRecord with CurrencyFee := "ETC" }] ∧
    buildERC20Transactions sample.evm2 sample.tokenTx sample.failedReceipt =
      .ok [{ sample.fallbackRecord with CurrencyFee := "ETC" }] :=
  ⟨by decide, by decide, by decide, by decide,
   (matching_is_exact sample.evm2 sample.tokenTx sample.tokenReceipt sample.native2
      (by decide)).1 (by decide) (by decide),
   rfl, rfl, rfl, rfl,
   (matching_is_exact sample.evm2 sample.tokenTx sample.failedReceipt sample.native2
      (by decide)).2 sample.token 100 rfl rfl rfl rfl,
   by decide!, by decide!⟩

/-- C8: a failed call to the registered token with a present, empty log list, 100000 gas
used and a gas fee cap of 10^14 gives one fallback record whose fee is the wrapped value
(10^19 - 2^64) x 10^-18, a negative number, where the claim has gasUsed x gasFeeCap x
10^-18 = 10; and a failed contract creation with the same receipt gives no list of
records, it stops with a nil dereference at the read of the recipient. -/
theorem buildTransaction_fallback_fee_wraps :
    sample.costlyFailedReceipt.Status = 0 ∧ sample.costlyFailedReceipt.Logs = some [] ∧
    sample.costlyTx.To = some sample.token ∧
    (sample.costlyFailedReceipt.GasUsed : Int) * sample.costlyTx.GasFeeCap =
      10000000000000000000 ∧
    (NewFromBigInt 10000000000000000000 (-sample.native.BaseFactor)).toRat = 10 ∧
    buildTransaction sample.evm (.ok sample.costlyFailedReceipt) sample.costlyTx =
      .ok [{ sample.fallbackRecord with
             Fee := NewFromBigInt (-8446744073709551616) (-18) }] ∧
    (NewFromBigInt (-8446744073709551616) (-18)).toRat < 0 ∧
    sample.creationTx.To = none ∧
    buildTransaction sample.evm (.ok sample.costlyFailedReceipt) sample.creationTx =
      .error .nilDereference := by
  refine ⟨rfl, rfl, rfl, by decide, ?_, by decide!, ?_, rfl, by decide⟩
  · norm_num [NewFromBigInt, Decimal.toRat, sample.native]
  · norm_num [NewFromBigInt, Decimal.toRat]

/-- The fallback inside the 64-bit range: when the status code is 0, the log list is
present with zero entries, the native currency is configured with a scale above -2^31,
the recipient is present, the block number is present and below 2^63, and the gas fee cap
is non-negative with gasUsed x gasFeeCap below 2^63, normalisation returns exactly one
fallback record per registry entry that matches the recipient, in registry order; each
carries the hash, the block number, the native id as fee asset, the id of the entry as
asset, the fee gasUsed x gasFeeCap x 10^-scale and the status failed, with a zero
amount, no source and an empty destination. -/
theorem buildTransaction_failed_no_logs (b : EVM) (tx : types.Transaction)
    (receipt : types.Receipt) (currency : BlockchainSettingsCurrency)
    (recipient : Address) (n : Int)
    (hstatus : receipt.Status = 0) (hlogs : receipt.Logs = some [])
    (hcur : b.currency = some currency) (hto : tx.To = some recipient)
    (hbn : receipt.BlockNumber = some n) (hn0 : 0 ≤ n) (hn1 : n < 9223372036854775808)
    (hcap : 0 ≤ tx.GasFeeCap)
    (hfee : (receipt.GasUsed : Int) * tx.GasFeeCap < 9223372036854775808)
    (hlo : -2147483648 < currency.BaseFactor) (hhi : currency.BaseFactor < 2147483648) :
    buildTransaction b (.ok receipt) tx = .ok
      ((b.contracts.filter fun c => matchesContract c recipient).map fun c =>
        { Currency := c.ID
          CurrencyFee := currency.ID
          TxHash := StringFrom tx.Hash.Hex
          FromAddresses := []
          ToAddress := ""
          Fee := NewFromBigInt ((receipt.GasUsed : Int) * tx.GasFeeCap) (-currency.BaseFactor)
          Amount := Decimal.zero
          BlockNumber := n
          Status := TransactionStatusFailed }) ∧
    (NewFromBigInt ((receipt.GasUsed : Int) * tx.GasFeeCap) (-currency.BaseFactor)).toRat =
      (receipt.GasUsed : ℚ) * (tx.GasFeeCap : ℚ) * (10 : ℚ) ^ (-currency.BaseFactor) ∧
    (∀ c, (b.contracts.filter fun c => matchesContract c recipient) = [c] →
      ∃ r, buildTransaction b (.ok receipt) tx = .ok [r] ∧ r.Currency = c.ID) := by
  have hmain : buildTransaction b (.ok receipt) tx =
      .ok (fallbackRecords b.contracts currency tx recipient n
        (NewFromBigInt ((receipt.GasUsed : Int) * tx.GasFeeCap) (-currency.BaseFactor))
        TransactionStatusFailed) := by
    unfold buildTransaction
    simp only [hlogs, ne_eq, reduceCtorEq, not_false_eq_true, if_true]
    rw [buildERC20Transactions_fallback b tx receipt currency recipient n hstatus hlogs hcur
      hto hbn, bigInt64_eq n hn0 hn1]
    unfold gasFee
    rw [int64OfUint64_mulUint64 _ _ hcap hfee, negInt32_eq _ hlo hhi]
  refine ⟨hmain, ?_, ?_⟩
  · rw [Decimal.toRat_NewFromBigInt]
    push_cast
    rfl
  · intro c hc
    rw [hmain]
    unfold fallbackRecords
    rw [hc]
    exact ⟨_, rfl, rfl⟩

/-- The failed call of the specification: a failed receipt with a present, empty log list
for a call to the registered token gives the one record `sample.fallbackRecord`. -/
theorem buildTransaction_failed_no_logs_witness :
    sample.failedReceipt.Status = 0 ∧ sample.failedReceipt.Logs = some [] ∧
    sample.evm.currency = some sample.native ∧ sample.tokenTx.To = some sample.token ∧
    sample.failedReceipt.BlockNumber = some 100 ∧ (0 : Int) ≤ 100 ∧
    (100 : Int) < 9223372036854775808 ∧ 0 ≤ sample.tokenTx.GasFeeCap ∧
    (sample.failedReceipt.GasUsed : Int) * sample.tokenTx.GasFeeCap < 9223372036854775808 ∧
    -2147483648 < sample.native.BaseFactor ∧ sample.native.BaseFactor < 2147483648 ∧
    (buildTransaction sample.evm (.ok sample.failedReceipt) sample.tokenTx = .ok
      ((sample.evm.contracts.filter fun c => matchesContract c sample.token).map fun c =>
        { Currency := c.ID
          CurrencyFee := sample.native.ID
          TxHash := StringFrom sample.tokenTx.Hash.Hex
          FromAddresses := []
          ToAddress := ""
          Fee := NewFromBigInt ((sample.failedReceipt.GasUsed : Int) * sample.tokenTx.GasFeeCap)
            (-sample.native.BaseFactor)
          Amount := Decimal.zero
          BlockNumber := 100
          Status := TransactionStatusFailed }) ∧
    (NewFromBigInt ((sample.failedReceipt.GasUsed : Int) * sample.tokenTx.GasFeeCap)
        (-sample.native.BaseFactor)).toRat =
      (sample.failedReceipt.GasUsed : ℚ) * (sample.tokenTx.GasFeeCap : ℚ) *
        (10 : ℚ) ^ (-sample.native.BaseFactor) ∧
    (∀ c, (sample.evm.contracts.filter fun c => matchesContract c sample.token) = [c] →
      ∃ r, buildTransaction sample.evm (.ok sample.failedReceipt) sample.tokenTx = .ok [r] ∧
        r.Currency = c.ID)) ∧
    buildTransaction sample.evm (.ok sample.failedReceipt) sample.tokenTx =
      .ok [sample.fallbackRecord] :=
  ⟨rfl, rfl, rfl, rfl, rfl, by decide, by decide, by decide, by decide, by decide,
   by decide,
   buildTransaction_failed_no_logs sample.evm sample.tokenTx sample.failedReceipt
     sample.native sample.token 100 rfl rfl rfl rfl rfl (by decide) (by decide) (by decide)
     (by decide) (by decide) (by decide),
   by decide!⟩

/-! ### Missing recipients and short topic lists -/

theorem buildETHTransactions_no_recipient (b : EVM) (tx : types.Transaction)
    (receipt : types.Receipt) (sender : Address)
    (hsender : tx.Sender = .ok sender) (hto : tx.To = none) :
    buildETHTransactions b tx receipt = .error .nilDereference := by
  simp only [buildETHTransactions, types.Transaction.AsMessage, hsender, hto]
  cases b.currency <;> rfl

theorem erc20Logs_short_topics (b : EVM) (currency : BlockchainSettingsCurrency)
    (tx : types.Transaction) (receipt : types.Receipt) (fee : Decimal) (l : types.Log)
    (ls : List types.Log) (acc : List Transaction)
    (h1 : hasTransferTopic l = true) (h2 : l.Topics.length < 3) :
    erc20Logs b currency tx receipt fee (l :: ls) acc = .error .indexOutOfRange := by
  rw [erc20Logs, if_neg (block_guard_never_holds l)]
  unfold hasTransferTopic at h1
  rcases hT : l.Topics with _ | ⟨t0, _ | ⟨t1, _ | ⟨t2, rest⟩⟩⟩
  · rw [hT] at h1
    simp at h1
  · rw [hT] at h1
    simp only [decide_eq_true_eq] at h1
    simp [h1]
  · rw [hT] at h1
    simp only [decide_eq_true_eq] at h1
    simp [h1]
  · rw [hT] at h2
    simp only [List.length_cons] at h2
    omega

theorem invalidErc20Contracts_no_recipient (currency : BlockchainSettingsCurrency)
    (tx : types.Transaction) (receipt : types.Receipt) (fee : Decimal)
    (c : BlockchainSettingsCurrency) (cs : List BlockchainSettingsCurrency)
    (acc : List Transaction) (hto : tx.To = none) :
    invalidErc20Contracts currency tx receipt fee (c :: cs) acc = .error .nilDereference := by
  rw [invalidErc20Contracts]
  simp only [hto]

/-- C9: a contract creation whose receipt has a present log list with zero entries, the
form in which the RPC client delivers a receipt without logs, is not refused: by the test
of line 164 it is taken by the token path, and normalisation returns an empty list and no
error where the claim has an InvalidTransaction error. The native builder has no check of
the recipient either: called on the same transaction and receipt it stops with a nil
dereference. -/
theorem buildTransaction_creation_no_error :
    sample.creationTx.To = none ∧ sample.emptyLogsReceipt.Logs = some [] ∧
    buildTransaction sample.evm (.ok sample.emptyLogsReceipt) sample.creationTx = .ok [] ∧
    (∀ e : Failure,
      buildTransaction sample.evm (.ok sample.emptyLogsReceipt) sample.creationTx ≠
        .error e) ∧
    buildETHTransactions sample.evm sample.creationTx sample.emptyLogsReceipt =
      .error .nilDereference := by
  have h : buildTransaction sample.evm (.ok sample.emptyLogsReceipt) sample.creationTx =
      .ok [] := by decide
  refine ⟨rfl, rfl, h, ?_, by decide⟩
  intro e he
  rw [h] at he
  cases he

/-- C10: with logs present the token path can fail. A log with the Transfer signature and
one more topic stops the loop with an index out of range at the read of the third topic,
and a failed contract creation without logs stops the fallback with a nil dereference at
the read of the recipient. -/
theorem token_path_faults :
    sample.twoTopicReceipt.Logs = some [sample.twoTopicLog] ∧
    hasTransferTopic sample.twoTopicLog = true ∧ sample.twoTopicLog.Topics.length = 2 ∧
    buildTransaction sample.evm (.ok sample.twoTopicReceipt) sample.tokenTx =
      .error .indexOutOfRange ∧
    sample.failedReceipt.Logs = some [] ∧ sample.creationTx.To = none ∧
    buildTransaction sample.evm (.ok sample.failedReceipt) sample.creationTx =
      .error .nilDereference := by
  refine ⟨rfl, by decide, rfl, by decide, rfl, rfl, by decide⟩

/-! ### Hexadecimal forms -/

theorem hexDigitValue_hexDigit (n : Nat) (h : n < 16) : hexDigitValue (hexDigit n) = some n := by
  interval_cases n <;> decide

theorem Bytes2Hex_data_cons (x : Byte) (d : List Byte) :
    (Bytes2Hex (x :: d)).data =
      hexDigit (x.val / 16) :: hexDigit (x.val % 16) :: (Bytes2Hex d).data := by
  simp [Bytes2Hex]

theorem Bytes2Hex_data_append (d e : List Byte) :
    (Bytes2Hex (d ++ e)).data = (Bytes2Hex d).data ++ (Bytes2Hex e).data := by
  simp [Bytes2Hex]

theorem hexDigits_injective (x y : Byte)
    (h1 : hexDigit (x.val / 16) = hexDigit (y.val / 16))
    (h2 : hexDigit (x.val % 16) = hexDigit (y.val % 16)) : x = y := by
  have hx := x.isLt
  have hy := y.isLt
  have a1 := hexDigitValue_hexDigit (x.val / 16) (by omega)
  have a2 := hexDigitValue_hexDigit (y.val / 16) (by omega)
  have b1 := hexDigitValue_hexDigit (x.val % 16) (by omega)
  have b2 := hexDigitValue_hexDigit (y.val % 16) (by omega)
  rw [h1, a2] at a1
  rw [h2, b2] at b1
  have e1 : y.val / 16 = x.val / 16 := Option.some.inj a1
  have e2 : y.val % 16 = x.val % 16 := Option.some.inj b1
  apply Fin.ext
  omega

theorem Bytes2Hex_injective (d e : List Byte) (h : (Bytes2Hex d).data = (Bytes2Hex e).data) :
    d = e := by
  induction d generalizing e with
  | nil =>
    cases e with
    | nil => rfl
    | cons y e => simp [Bytes2Hex] at h
  | cons x d ih =>
    cases e with
    | nil => simp [Bytes2Hex] at h
    | cons y e =>
      rw [Bytes2Hex_data_cons, Bytes2Hex_data_cons] at h
      simp only [List.cons.injEq] at h
      rw [hexDigits_injective x y h.1 h.2.1, ih e h.2.2]

theorem Address.hex_injective (a b : Address) (h : a.hex = b.hex) : a = b := by
  have hd : (Bytes2Hex a.bytes).data = (Bytes2Hex b.bytes).data := by
    have := congrArg String.data h
    simpa [Address.hex, String.data_append] using this
  have hb := Bytes2Hex_injective _ _ hd
  cases a
  cases b
  simp only at hb
  subst hb
  rfl

theorem Hash.Hex_injective (h k : Hash) (e : h.Hex = k.Hex) : h = k := by
  have hd : (Bytes2Hex h.bytes).data = (Bytes2Hex k.bytes).data := by
    have := congrArg String.data e
    simpa [Hash.Hex, String.data_append] using this
  have hb := Bytes2Hex_injective _ _ hd
  cases h
  cases k
  simp only at hb
  subst hb
  rfl

theorem sliceFrom_Hex (h : Hash) :
    sliceFrom h.Hex 26 = Bytes2Hex (h.bytes.drop 12) := by
  have hsplit : h.bytes = h.bytes.take 12 ++ h.bytes.drop 12 := (List.take_append_drop 12 _).symm
  have hlen : (Bytes2Hex (h.bytes.take 12)).data.length = 24 := by
    rw [Bytes2Hex_length, List.length_take, h.size]
    rfl
  apply String.ext
  show (h.Hex).data.drop 26 = _
  have hdata : (h.Hex).data =
      ('0' :: 'x' :: (Bytes2Hex (h.bytes.take 12)).data) ++ (Bytes2Hex (h.bytes.drop 12)).data := by
    conv_lhs => rw [Hash.Hex, hsplit]
    rw [String.data_append, Bytes2Hex_data_append]
    rfl
  rw [hdata]
  apply List.drop_left'
  simp [hlen]

theorem Address.Hash_drop (a : Address) : a.Hash.bytes.drop 12 = a.bytes := by
  show (List.replicate 12 0 ++ a.bytes).drop 12 = a.bytes
  apply List.drop_left'
  simp

theorem Address.Hash_slice (a : Address) : "0x" ++ sliceFrom a.Hash.Hex 26 = a.hex := by
  rw [sliceFrom_Hex, Address.Hash_drop]
  rfl

theorem Address.hex_length (a : Address) : a.hex.data.length = 42 := by
  have := Bytes2Hex_length a.bytes
  simp only [Address.hex, String.data_append, List.length_append, this, a.size]
  rfl

/-- C13: the decoding of the loop returns the addresses it was given. For every log whose
first topic is the Transfer signature and whose second and third topics are two addresses
left-padded with 12 zero bytes, the loop of the token path appends, for each matching
registry entry, a record whose source list is the one string "0x" and the 40 lower-case
digits of the first address and whose destination is that form of the second address; so
does the builder for a receipt with that one log. The form is "0x" followed by the
characters from index 26 of the 66-character form of the topic, it is the form of the last
20 bytes of the topic, and it belongs to no other address. -/
theorem topic_address_round_trip (b : EVM) (currency : BlockchainSettingsCurrency)
    (tx : types.Transaction) (receipt : types.Receipt) (fee : Decimal) (l : types.Log)
    (ls : List types.Log) (acc : List Transaction) (t0 : Hash) (src dst : Address)
    (rest : List Hash)
    (hT : l.Topics = t0 :: src.Hash :: dst.Hash :: rest)
    (ht : t0.Hex = tokenEventIdentifier) :
    erc20Logs b currency tx receipt fee (l :: ls) acc =
      erc20Logs b currency tx receipt fee ls
        (acc ++ (b.contracts.filter fun c => matchesContract c l.Address).map fun c =>
          { Currency := c.ID
            CurrencyFee := currency.ID
            TxHash := StringFrom tx.Hash.Hex
            FromAddresses := [src.hex]
            ToAddress := dst.hex
            Fee := fee
            Amount := logValue l
            Status := transactionStatus receipt }) ∧
    (b.currency = some currency → receipt.Logs = some [l] →
      buildERC20Transactions b tx receipt = .ok
        ((b.contracts.filter fun c => matchesContract c l.Address).map fun c =>
          { Currency := c.ID
            CurrencyFee := currency.ID
            TxHash := StringFrom tx.Hash.Hex
            FromAddresses := [src.hex]
            ToAddress := dst.hex
            Fee := gasFee currency tx receipt
            Amount := logValue l
            Status := transactionStatus receipt })) ∧
    src.Hash.bytes = List.replicate 12 0 ++ src.bytes ∧
    src.Hash.Hex.data.length = 66 ∧
    "0x" ++ sliceFrom src.Hash.Hex 26 = src.hex ∧
    src.hex = "0x" ++ Bytes2Hex (src.Hash.bytes.drop 12) ∧
    src.hex.data.length = 42 ∧
    (∀ a : Address, a.hex = src.hex → a = src) := by
  have hstep : ∀ (fee : Decimal) (ls : List types.Log) (acc : List Transaction),
      erc20Logs b currency tx receipt fee (l :: ls) acc =
        erc20Logs b currency tx receipt fee ls
          (acc ++ (b.contracts.filter fun c => matchesContract c l.Address).map fun c =>
            { Currency := c.ID
              CurrencyFee := currency.ID
              TxHash := StringFrom tx.Hash.Hex
              FromAddresses := [src.hex]
              ToAddress := dst.hex
              Fee := fee
              Amount := logValue l
              Status := transactionStatus receipt }) := by
    intro fee ls acc
    rw [erc20Logs, if_neg (block_guard_never_holds l)]
    simp only [hT, ht, ne_eq, not_true_eq_false, if_false, List.get?_cons_succ,
      List.get?_cons_zero]
    rw [foldl_append_filter
      (fun (c : BlockchainSettingsCurrency) =>
        ifaceEqString (c.option "erc20_contract_address") l.Address.Hex)
      (fun (c : BlockchainSettingsCurrency) =>
        erc20Record currency c tx receipt ("0x" ++ sliceFrom src.Hash.Hex 26)
          ("0x" ++ sliceFrom dst.Hash.Hex 26) fee (logValue l)),
      Address.Hash_slice, Address.Hash_slice]
    rfl
  refine ⟨hstep fee ls acc, ?_, rfl, Hash.Hex_length _, Address.Hash_slice src, ?_,
    Address.hex_length src, ?_⟩
  · intro hcur hlogs
    have hl : receipt.logs = [l] := by simp [types.Receipt.logs, hlogs]
    have hpath : ¬ (transactionStatus receipt = TransactionStatusFailed ∧
        receipt.logs.length = 0) := by simp [hl]
    unfold buildERC20Transactions
    rw [if_neg hpath]
    simp only [hcur]
    rw [hl, hstep]
    rfl
  · rw [Address.Hash_drop]
    rfl
  · intro a ha
    exact Address.hex_injective a src ha

/-- The round trip on the Transfer log from alice to bob, in the loop and in the builder. -/
theorem topic_address_round_trip_witness :
    sample.transferLog.Topics =
      sample.transferTopic :: sample.alice.Hash :: sample.bob.Hash :: [] ∧
    sample.transferTopic.Hex = tokenEventIdentifier ∧
    (erc20Logs sample.evm sample.native sample.tokenTx sample.tokenReceipt
        (gasFee sample.native sample.tokenTx sample.tokenReceipt)
        (sample.transferLog :: []) [] =
      erc20Logs sample.evm sample.native sample.tokenTx sample.tokenReceipt
        (gasFee sample.native sample.tokenTx sample.tokenReceipt) []
        ([] ++ (sample.evm.contracts.filter fun c =>
            matchesContract c sample.transferLog.Address).map fun c =>
          { Currency := c.ID
            CurrencyFee := sample.native.ID
            TxHash := StringFrom sample.tokenTx.Hash.Hex
            FromAddresses := [sample.alice.hex]
            ToAddress := sample.bob.hex
            Fee := gasFee sample.native sample.tokenTx sample.tokenReceipt
            Amount := logValue sample.transferLog
            Status := transactionStatus sample.tokenReceipt }) ∧
    (sample.evm.currency = some sample.native →
      sample.tokenReceipt.Logs = some [sample.transferLog] →
      buildERC20Transactions sample.evm sample.tokenTx sample.tokenReceipt = .ok
        ((sample.evm.contracts.filter fun c =>
            matchesContract c sample.transferLog.Address).map fun c =>
          { Currency := c.ID
            CurrencyFee := sample.native.ID
            TxHash := StringFrom sample.tokenTx.Hash.Hex
            FromAddresses := [sample.alice.hex]
            ToAddress := sample.bob.hex
            Fee := gasFee sample.native sample.tokenTx sample.tokenReceipt
            Amount := logValue sample.transferLog
            Status := transactionStatus sample.tokenReceipt })) ∧
    sample.alice.Hash.bytes = List.replicate 12 0 ++ sample.alice.bytes ∧
    sample.alice.Hash.Hex.data.length = 66 ∧
    "0x" ++ sliceFrom sample.alice.Hash.Hex 26 = sample.alice.hex ∧
    sample.alice.hex = "0x" ++ Bytes2Hex (sample.alice.Hash.bytes.drop 12) ∧
    sample.alice.hex.data.length = 42 ∧
    (∀ a : Address, a.hex = sample.alice.hex → a = sample.alice)) ∧
    sample.alice.hex = "0x0000000000000000000000000000000000000a11" ∧
    sample.bob.hex = "0x0000000000000000000000000000000000000b0b" ∧
    buildERC20Transactions sample.evm sample.tokenTx sample.tokenReceipt =
      .ok [sample.transferRecord] :=
  ⟨rfl, by decide,
   topic_address_round_trip sample.evm sample.native sample.tokenTx sample.tokenReceipt
     (gasFee sample.native sample.tokenTx sample.tokenReceipt) sample.transferLog [] []
     sample.transferTopic sample.alice sample.bob [] rfl (by decide),
   by decide, by decide, by decide!⟩

/-! ### The data payload of a log -/

theorem scanBase16_Bytes2Hex (d : List Byte) (acc : Nat) :
    scanBase16 (Bytes2Hex d).data acc =
      some (d.foldl (fun acc x => 256 * acc + x.val) acc) := by
  induction d generalizing acc with
  | nil => rfl
  | cons x d ih =>
    have hx := x.isLt
    rw [Bytes2Hex_data_cons, scanBase16, hexDigitValue_hexDigit _ (by omega)]
    simp only []
    rw [scanBase16, hexDigitValue_hexDigit _ (by omega)]
    simp only []
    rw [ih, List.foldl_cons]
    congr 2
    omega

theorem setStringBase16_Bytes2Hex (d : List Byte) :
    setStringBase16 (Bytes2Hex d) = (bigEndian d : Int) := by
  unfold setStringBase16
  split
  · next h =>
    cases d with
    | nil => rfl
    | cons x d =>
      rw [Bytes2Hex_data_cons] at h
      cases h
  · next c cs h =>
    rw [← h, scanBase16_Bytes2Hex]
    rfl

theorem parsesBase16_Bytes2Hex (d : List Byte) :
    parsesBase16 (Bytes2Hex d) = decide (d ≠ []) := by
  unfold parsesBase16
  split
  · next h =>
    cases d with
    | nil => rfl
    | cons x d =>
      rw [Bytes2Hex_data_cons] at h
      cases h
  · next c cs h =>
    rw [← h, scanBase16_Bytes2Hex]
    cases d with
    | nil => cases h
    | cons x d => simp

/-- C11: the empty payload is the payload that does not parse, and the Transfer log that
carries it is not skipped: the code returns a record of amount 0 for it, ahead of the
record of the next log, where the receipt without that log gives the second record
alone. -/
theorem buildERC20Transactions_empty_data_kept :
    sample.emptyDataLog.Data = [] ∧
    parsesBase16 (Bytes2Hex sample.emptyDataLog.Data) = false ∧
    sample.emptyDataReceipt.Logs = some [sample.emptyDataLog, sample.transferLog] ∧
    buildERC20Transactions sample.evm sample.tokenTx sample.emptyDataReceipt =
      .ok [sample.zeroAmountRecord, sample.transferRecord] ∧
    buildERC20Transactions sample.evm sample.tokenTx sample.tokenReceipt =
      .ok [sample.transferRecord] := by
  refine ⟨rfl, by decide, rfl, by decide!, by decide!⟩

/-! ### Monotonicity of the fee -/

theorem gasFee_monotone_in_range (currency : BlockchainSettingsCurrency)
    (tx : types.Transaction) (r1 r2 : types.Receipt) (hcap : 0 ≤ tx.GasFeeCap)
    (h12 : r1.GasUsed ≤ r2.GasUsed)
    (hfee : (r2.GasUsed : Int) * tx.GasFeeCap < 9223372036854775808) :
    (gasFee currency tx r1).toRat ≤ (gasFee currency tx r2).toRat := by
  have hle : (r1.GasUsed : Int) * tx.GasFeeCap ≤ (r2.GasUsed : Int) * tx.GasFeeCap :=
    Int.mul_le_mul_of_nonneg_right (by exact_mod_cast h12) hcap
  unfold gasFee
  rw [int64OfUint64_mulUint64 _ _ hcap hfee,
    int64OfUint64_mulUint64 _ _ hcap (lt_of_le_of_lt hle hfee)]
  simp only [Decimal.toRat_NewFromBigInt]
  apply mul_le_mul_of_nonneg_right
  · exact_mod_cast hle
  · positivity

/-- C14: at the gas fee cap 10^14 and scale 18 the fee for 90000 gas is 9 and the fee for
100000 gas is the wrapped, negative value (10^19 - 2^64) x 10^-18: more gas, smaller fee,
in the fee expression and in the records of the token path. -/
theorem gasFee_not_monotone :
    sample.lessGasReceipt.GasUsed ≤ sample.costlyReceipt.GasUsed ∧
    sample.costlyReceipt.GasUsed < 18446744073709551616 ∧
    gasFee sample.native sample.costlyTx sample.lessGasReceipt =
      NewFromBigInt 9000000000000000000 (-18) ∧
    gasFee sample.native sample.costlyTx sample.costlyReceipt =
      NewFromBigInt (-8446744073709551616) (-18) ∧
    (gasFee sample.native sample.costlyTx sample.costlyReceipt).toRat <
      (gasFee sample.native sample.costlyTx sample.lessGasReceipt).toRat ∧
    buildERC20Transactions sample.evm sample.costlyTx sample.lessGasReceipt =
      .ok [{ sample.transferRecord with Fee := NewFromBigInt 9000000000000000000 (-18) }] ∧
    buildERC20Transactions sample.evm sample.costlyTx sample.costlyReceipt =
      .ok [{ sample.transferRecord with Fee := NewFromBigInt (-8446744073709551616) (-18) }] := by
  have h1 : gasFee sample.native sample.costlyTx sample.lessGasReceipt =
      NewFromBigInt 9000000000000000000 (-18) := by decide
  have h2 : gasFee sample.native sample.costlyTx sample.costlyReceipt =
      NewFromBigInt (-8446744073709551616) (-18) := by decide
  refine ⟨by decide, by decide, h1, h2, ?_, by decide!, by decide!⟩
  rw [h1, h2]
  norm_num [NewFromBigInt, Decimal.toRat]

/-! ### Logs without the Transfer signature -/

theorem tokenEventIdentifier_Hex : transferSignature.Hex = tokenEventIdentifier := by
  decide

theorem hasTransferTopic_iff (l : types.Log) :
    hasTransferTopic l = true ↔ ∃ rest, l.Topics = transferSignature :: rest := by
  unfold hasTransferTopic
  constructor
  · intro h
    split at h
    · simp at h
    · next t0 rest hT =>
      simp only [decide_eq_true_eq] at h
      rw [← tokenEventIdentifier_Hex] at h
      exact ⟨rest, by rw [hT, Hash.Hex_injective _ _ h]⟩
  · rintro ⟨rest, hT⟩
    rw [hT]
    simp only [decide_eq_true_eq]
    exact tokenEventIdentifier_Hex

theorem erc20Logs_skip (b : EVM) (currency : BlockchainSettingsCurrency)
    (tx : types.Transaction) (receipt : types.Receipt) (fee : Decimal) (l : types.Log)
    (ls : List types.Log) (acc : List Transaction) (h : hasTransferTopic l = false) :
    erc20Logs b currency tx receipt fee (l :: ls) acc =
      erc20Logs b currency tx receipt fee ls acc := by
  rw [erc20Logs]
  split_ifs
  · rfl
  · unfold hasTransferTopic at h
    split
    · rfl
    · next t0 rest hT =>
      rw [hT] at h
      simp only [decide_eq_false_iff_not] at h
      simp [h]

theorem erc20Logs_filter (b : EVM) (currency : BlockchainSettingsCurrency)
    (tx : types.Transaction) (receipt : types.Receipt) (fee : Decimal)
    (ls : List types.Log) (acc : List Transaction) :
    erc20Logs b currency tx receipt fee (ls.filter hasTransferTopic) acc =
      erc20Logs b currency tx receipt fee ls acc := by
  induction ls generalizing acc with
  | nil => rfl
  | cons l ls ih =>
    by_cases h : hasTransferTopic l = true
    · rw [List.filter_cons_of_pos h]
      conv_lhs => rw [erc20Logs]
      conv_rhs => rw [erc20Logs]
      simp only [ih]
    · have hf : hasTransferTopic l = false := by simpa using h
      rw [List.filter_cons_of_neg h, ih, erc20Logs_skip _ _ _ _ _ _ _ _ hf]

theorem erc20Logs_same_status (b : EVM) (currency : BlockchainSettingsCurrency)
    (tx : types.Transaction) (r1 r2 : types.Receipt) (fee : Decimal)
    (hs : r1.Status = r2.Status) (ls : List types.Log) (acc : List Transaction) :
    erc20Logs b currency tx r1 fee ls acc = erc20Logs b currency tx r2 fee ls acc := by
  have hst : transactionStatus r1 = transactionStatus r2 := by
    unfold transactionStatus
    rw [hs]
  induction ls generalizing acc with
  | nil => rfl
  | cons l ls ih =>
    conv_lhs => rw [erc20Logs]
    conv_rhs => rw [erc20Logs]
    simp only [ih, erc20Record, hst]

theorem withoutOtherLogs_of_no_logs (receipt : types.Receipt) (h : receipt.logs = []) :
    withoutOtherLogs receipt = receipt := by
  obtain ⟨s, g, logs, n⟩ := receipt
  cases logs with
  | none => rfl
  | some ls =>
    have : ls = [] := by simpa [types.Receipt.logs] using h
    subst this
    rfl

theorem buildERC20Transactions_without_other_logs (b : EVM) (tx : types.Transaction)
    (receipt : types.Receipt)
    (h : ¬ (transactionStatus receipt = TransactionStatusFailed ∧ receipt.logs ≠ [] ∧
      receipt.logs.filter hasTransferTopic = [])) :
    buildERC20Transactions b tx (withoutOtherLogs receipt) =
      buildERC20Transactions b tx receipt := by
  by_cases hl : receipt.logs = []
  · rw [withoutOtherLogs_of_no_logs receipt hl]
  · have hlogs' : (withoutOtherLogs receipt).logs = receipt.logs.filter hasTransferTopic := by
      obtain ⟨s, g, logs, n⟩ := receipt
      cases logs <;> rfl
    have hst : transactionStatus (withoutOtherLogs receipt) = transactionStatus receipt := rfl
    have h1 : ¬ (transactionStatus receipt = TransactionStatusFailed ∧
        receipt.logs.length = 0) := by
      rw [List.length_eq_zero]
      exact fun hh => hl hh.2
    have h2 : ¬ (transactionStatus (withoutOtherLogs receipt) = TransactionStatusFailed ∧
        (withoutOtherLogs receipt).logs.length = 0) := by
      rw [hst, hlogs', List.length_eq_zero]
      exact fun hh => h ⟨hh.1, hl, hh.2⟩
    unfold buildERC20Transactions
    rw [if_neg h1, if_neg h2]
    cases b.currency with
    | none => rfl
    | some currency =>
      simp only []
      rw [hlogs', erc20Logs_filter,
        erc20Logs_same_status b currency tx (withoutOtherLogs receipt) receipt _ rfl]
      rfl

/-- C12, as stated, fails: a receipt with status code 0 whose one log is an Approval log
gives no record, but once that log is removed the log list is empty and the call is taken
by the failed-with-no-logs fallback, which returns a record for the registered recipient. -/
theorem other_log_removed_changes_output :
    sample.failedApprovalReceipt.Logs = some [sample.approvalLog] ∧
    hasTransferTopic sample.approvalLog = false ∧
    (withoutOtherLogs sample.failedApprovalReceipt).Logs = some [] ∧
    buildTransaction sample.evm (.ok sample.failedApprovalReceipt) sample.tokenTx = .ok [] ∧
    buildTransaction sample.evm (.ok (withoutOtherLogs sample.failedApprovalReceipt))
      sample.tokenTx = .ok [sample.fallbackRecord] := by
  refine ⟨rfl, by decide, by decide, by decide, by decide!⟩

/-- C12, amended: a log whose topic list is empty or whose first topic is not the
Transfer signature is passed over by the loop, without a record and without an error.
Unless the status is failed and the removal leaves an empty list out of a non-empty one
(the reduced receipt is then taken by the fallback), the output for a receipt, a list or
a failure alike, is the output for the receipt with all such logs removed. -/
theorem buildTransaction_without_other_logs (b : EVM) (tx : types.Transaction)
    (receipt : types.Receipt)
    (h : ¬ (transactionStatus receipt = TransactionStatusFailed ∧ receipt.logs ≠ [] ∧
      receipt.logs.filter hasTransferTopic = [])) :
    (∀ l : types.Log, hasTransferTopic l = false ↔
      (l.Topics = [] ∨ ∃ t0 rest, l.Topics = t0 :: rest ∧ t0 ≠ transferSignature)) ∧
    (∀ (currency : BlockchainSettingsCurrency) (fee : Decimal) (l : types.Log)
      (ls : List types.Log) (acc : List Transaction), hasTransferTopic l = false →
      erc20Logs b currency tx receipt fee (l :: ls) acc =
        erc20Logs b currency tx receipt fee ls acc) ∧
    buildERC20Transactions b tx receipt =
      buildERC20Transactions b tx (withoutOtherLogs receipt) ∧
    buildTransaction b (.ok receipt) tx =
      buildTransaction b (.ok (withoutOtherLogs receipt)) tx := by
  have hmain := buildERC20Transactions_without_other_logs b tx receipt h
  refine ⟨?_, ?_, hmain.symm, ?_⟩
  · intro l
    rw [← Bool.not_eq_true, hasTransferTopic_iff]
    constructor
    · intro hn
      rcases hT : l.Topics with _ | ⟨t0, rest⟩
      · exact Or.inl rfl
      · refine Or.inr ⟨t0, rest, rfl, ?_⟩
        rintro rfl
        exact hn ⟨rest, hT⟩
    · rintro (hT | ⟨t0, rest, hT, hne⟩) ⟨rest', hT'⟩
      · rw [hT] at hT'
        cases hT'
      · rw [hT] at hT'
        cases hT'
        exact hne rfl
  · intro currency fee l ls acc hl
    exact erc20Logs_skip b currency tx receipt fee l ls acc hl
  · unfold buildTransaction
    obtain ⟨s, g, logs, n⟩ := receipt
    cases logs with
    | none => rfl
    | some ls =>
      have hne : (withoutOtherLogs ⟨s, g, some ls, n⟩).Logs ≠ none := by
        simp [withoutOtherLogs]
      simp only [ne_eq, reduceCtorEq, not_false_eq_true, if_true, hne]
      exact hmain.symm

/-- A successful receipt with an Approval log, a Transfer log and a log without topics:
the output is that of the receipt with the Transfer log alone. -/
theorem buildTransaction_without_other_logs_witness :
    ¬ (transactionStatus sample.mixedReceipt = TransactionStatusFailed ∧
      sample.mixedReceipt.logs ≠ [] ∧
      sample.mixedReceipt.logs.filter hasTransferTopic = []) ∧
    ((∀ l : types.Log, hasTransferTopic l = false ↔
      (l.Topics = [] ∨ ∃ t0 rest, l.Topics = t0 :: rest ∧ t0 ≠ transferSignature)) ∧
    (∀ (currency : BlockchainSettingsCurrency) (fee : Decimal) (l : types.Log)
      (ls : List types.Log) (acc : List Transaction), hasTransferTopic l = false →
      erc20Logs sample.evm currency sample.tokenTx sample.mixedReceipt fee (l :: ls) acc =
        erc20Logs sample.evm currency sample.tokenTx sample.mixedReceipt fee ls acc) ∧
    buildERC20Transactions sample.evm sample.tokenTx sample.mixedReceipt =
      buildERC20Transactions sample.evm sample.tokenTx (withoutOtherLogs sample.mixedReceipt) ∧
    buildTransaction sample.evm (.ok sample.mixedReceipt) sample.tokenTx =
      buildTransaction sample.evm (.ok (withoutOtherLogs sample.mixedReceipt))
        sample.tokenTx) ∧
    (withoutOtherLogs sample.mixedReceipt).Logs = some [sample.transferLog] ∧
    buildTransaction sample.evm (.ok sample.mixedReceipt) sample.tokenTx =
      .ok [sample.transferRecord] :=
  ⟨by decide,
   buildTransaction_without_other_logs sample.evm sample.tokenTx sample.mixedReceipt
     (by decide),
   by decide, by decide!⟩

/-! ### Configuration -/

theorem Configure_foldl (cs : List BlockchainSettingsCurrency) (b : EVM) :
    (cs.foldl
      (fun (b : EVM) c =>
        if (c.option "erc20_contract_address").isSome then
          { b with contracts := b.contracts ++ [c] }
        else
          { b with currency := some c }) b).contracts =
      b.contracts ++ cs.filter isTokenEntry ∧
    (cs.foldl
      (fun (b : EVM) c =>
        if (c.option "erc20_contract_address").isSome then
          { b with contracts := b.contracts ++ [c] }
        else
          { b with currency := some c }) b).currency =
      (match (cs.filter fun c => !isTokenEntry c).getLast? with
        | some c => some c
        | none => b.currency) ∧
    (cs.foldl
      (fun (b : EVM) c =>
        if (c.option "erc20_contract_address").isSome then
          { b with contracts := b.contracts ++ [c] }
        else
          { b with currency := some c }) b).settings = b.settings := by
  induction cs generalizing b with
  | nil => exact ⟨by simp, rfl, rfl⟩
  | cons c cs ih =>
    rw [List.foldl_cons]
    by_cases hc : (c.option "erc20_contract_address").isSome = true
    · have ht : isTokenEntry c = true := hc
      rw [if_pos hc]
      obtain ⟨h1, h2, h3⟩ := ih { b with contracts := b.contracts ++ [c] }
      refine ⟨?_, ?_, h3⟩
      · rw [h1]
        simp [ht]
      · rw [h2]
        simp [ht]
    · have ht : isTokenEntry c = false := by simpa [isTokenEntry] using hc
      rw [if_neg hc]
      obtain ⟨h1, h2, h3⟩ := ih { b with currency := some c }
      refine ⟨?_, ?_, h3⟩
      · rw [h1]
        simp [ht]
      · rw [h2]
        simp only [List.filter_cons, ht, Bool.not_false, if_true]
        rcases hf : (cs.filter fun c => !isTokenEntry c) with _ | ⟨d, ds⟩
        · rfl
        · rw [List.getLast?_cons_cons]
          rcases hg : (d :: ds).getLast? with _ | x
          · simp at hg
          · rfl

/-- C15: after `Configure`, the contract list is the prior list followed by the currencies
of the settings that hold a non-nil `erc20_contract_address` option, in their order; the
native currency is the last currency of the settings without that option, and the prior
one when there is none; the settings are stored; every currency of the settings is on
exactly one of the two sides. On a fresh instance the contract list is exactly the token
entries, and a second `Configure` with the same settings holds them twice. -/
theorem Configure_partitions (b : EVM) (s : BlockchainSettings) :
    (Configure b s).contracts = b.contracts ++ s.Currencies.filter isTokenEntry ∧
    (Configure b s).currency =
      (match (s.Currencies.filter fun c => !isTokenEntry c).getLast? with
        | some c => some c
        | none => b.currency) ∧
    (Configure b s).settings = s ∧
    (∀ c ∈ s.Currencies,
      (c ∈ s.Currencies.filter isTokenEntry ∧
          c ∉ s.Currencies.filter fun c => !isTokenEntry c) ∨
        (c ∉ s.Currencies.filter isTokenEntry ∧
          c ∈ s.Currencies.filter fun c => !isTokenEntry c)) ∧
    (s.Currencies.filter isTokenEntry).length +
        (s.Currencies.filter fun c => !isTokenEntry c).length = s.Currencies.length ∧
    (Configure NewBlockchain s).contracts = s.Currencies.filter isTokenEntry ∧
    (Configure (Configure NewBlockchain s) s).contracts =
      s.Currencies.filter isTokenEntry ++ s.Currencies.filter isTokenEntry := by
  have key : ∀ b : EVM,
      (Configure b s).contracts = b.contracts ++ s.Currencies.filter isTokenEntry ∧
      (Configure b s).currency =
        (match (s.Currencies.filter fun c => !isTokenEntry c).getLast? with
          | some c => some c
          | none => b.currency) ∧
      (Configure b s).settings = s := by
    intro b
    exact Configure_foldl s.Currencies { b with settings := s }
  refine ⟨(key b).1, (key b).2.1, (key b).2.2, ?_, ?_, ?_, ?_⟩
  · intro c hc
    by_cases ht : isTokenEntry c = true
    · left
      simp [List.mem_filter, hc, ht]
    · right
      simp [List.mem_filter, hc, ht]
  · induction s.Currencies with
    | nil => rfl
    | cons c cs ih =>
      by_cases ht : isTokenEntry c = true
      · simp only [List.filter_cons, ht, if_true, Bool.not_true, Bool.false_eq_true,
          if_false, List.length_cons]
        omega
      · simp only [List.filter_cons, ht, if_false, Bool.not_eq_true] at ih ⊢
        have ht' : isTokenEntry c = false := by simpa using ht
        simp only [ht', Bool.not_false, if_true, List.length_cons, Bool.false_eq_true,
          if_false]
        omega
  · rw [(key NewBlockchain).1]
    rfl
  · rw [(key (Configure NewBlockchain s)).1, (key NewBlockchain).1]
    rfl

/-- The settings with two plain currencies and two tokens, on a fresh instance and on an
instance that is configured a second time. -/
theorem Configure_partitions_witness :
    (Configure NewBlockchain sample.settings).contracts = [sample.usdx, sample.other] ∧
    (Configure NewBlockchain sample.settings).currency = some sample.native2 ∧
    (Configure NewBlockchain sample.settings).settings = sample.settings ∧
    (Configure (Configure NewBlockchain sample.settings) sample.settings).contracts =
      [sample.usdx, sample.other, sample.usdx, sample.other] ∧
    (Configure sample.evm ⟨[sample.tkn18]⟩).contracts = [sample.usdx, sample.tkn18] ∧
    (Configure sample.evm ⟨[sample.tkn18]⟩).currency = some sample.native ∧
    sample.settings.Currencies.filter isTokenEntry = [sample.usdx, sample.other] ∧
    (sample.native ∈ sample.settings.Currencies →
      (sample.native ∈ sample.settings.Currencies.filter isTokenEntry ∧
          sample.native ∉ sample.settings.Currencies.filter fun c => !isTokenEntry c) ∨
        (sample.native ∉ sample.settings.Currencies.filter isTokenEntry ∧
          sample.native ∈ sample.settings.Currencies.filter fun c => !isTokenEntry c)) :=
  ⟨by decide, by decide, by decide, by decide, by decide, by decide, by decide,
   (Configure_partitions NewBlockchain sample.settings).2.2.2.1 sample.native⟩

/-! ### The constructor of pkg/transaction -/

/-- C16: `New` returns a record whose Currency, FromAddress, ToAddress, Amount and TxHash
are the five arguments and whose other fields are at their zero values: CurrencyFee is
empty, Fee is the zero decimal, BlockNumber is 0, Status is the empty string, which is
none of pending, success, failed and skipped, and Options is nil. -/
theorem New_fields (currency fromAddress toAddress : String) (amount : Decimal)
    (txHash : NullString) :
    (transaction.New currency fromAddress toAddress amount txHash).Currency = currency ∧
    (transaction.New currency fromAddress toAddress amount txHash).FromAddress = fromAddress ∧
    (transaction.New currency fromAddress toAddress amount txHash).ToAddress = toAddress ∧
    (transaction.New currency fromAddress toAddress amount txHash).Amount = amount ∧
    (transaction.New currency fromAddress toAddress amount txHash).TxHash = txHash ∧
    (transaction.New currency fromAddress toAddress amount txHash).CurrencyFee = "" ∧
    (transaction.New currency fromAddress toAddress amount txHash).Fee = Decimal.zero ∧
    (transaction.New currency fromAddress toAddress amount txHash).Fee.toRat = 0 ∧
    (transaction.New currency fromAddress toAddress amount txHash).BlockNumber = 0 ∧
    (transaction.New currency fromAddress toAddress amount txHash).Status = "" ∧
    (transaction.New currency fromAddress toAddress amount txHash).Status ≠
      transaction.StatusPending ∧
    (transaction.New currency fromAddress toAddress amount txHash).Status ≠
      transaction.StatusSuccess ∧
    (transaction.New currency fromAddress toAddress amount txHash).Status ≠
      transaction.StatusFailed ∧
    (transaction.New currency fromAddress toAddress amount txHash).Status ≠
      transaction.StatusSkipped ∧
    (transaction.New currency fromAddress toAddress amount txHash).Options = none := by
  refine ⟨rfl, rfl, rfl, rfl, rfl, rfl, rfl, ?_, rfl, rfl, ?_, ?_, ?_, ?_, rfl⟩
  · simp [transaction.New, Decimal.zero, Decimal.toRat]
  · show "" ≠ "pending"
    decide
  · show "" ≠ "success"
    decide
  · show "" ≠ "failed"
    decide
  · show "" ≠ "skipped"
    decide

end evm
